import Mathlib

/-!
# Spektr engine and schema discovery: a shallow embedding

This file embeds the core of the Spektr analytics engine (the query
execution pipeline in package `engine`: views, filters, grouping and
aggregation, growth/ratio analysis, builders and the executor) and the
schema auto-discovery / refinement code (package `schema`) as executable
Lean definitions, and proves properties of the embedded code.

Modelling conventions:
* Go `float64` is modelled as `Rat` (exact arithmetic; the engine's
  numeric logic is plain field arithmetic and comparisons).
* Go maps are modelled as association lists; where Go iterates a map in
  unspecified order, the embedding fixes a deterministic order
  (first-seen / source-listing order), which only resolves behaviour the
  Go code leaves unspecified.
* Go's `sort.Slice` (unstable) is modelled by a stable insertion sort,
  a deterministic refinement.
* The fallible surface (`(*Result, error)`) is modelled as a pair with an
  `Option String` error component.
-/

namespace Spektr

/-! ## String primitives

Go's string functions (`strings.ToLower`, `TrimSpace`, `Split`,
`ReplaceAll`, …) are modelled by executable character-list functions so
that concrete witnesses evaluate inside the kernel.  Case mapping and
white-space classification are modelled on the ASCII range (the Go
originals also handle non-ASCII Unicode classes; every string the engine
treats specially is ASCII). -/

/-- ASCII lower-casing of one character (model of Unicode `ToLower`). -/
def charLower (c : Char) : Char :=
  if 65 ≤ c.toNat ∧ c.toNat ≤ 90 then Char.ofNat (c.toNat + 32) else c

/-- Model of `strings.ToLower`. -/
def strLower (s : String) : String :=
  String.mk (s.data.map charLower)

/-- ASCII white space (model of the classes `strings.TrimSpace` cuts). -/
def isSpaceChar (c : Char) : Bool :=
  c.toNat = 32 ∨ c.toNat = 9 ∨ c.toNat = 10 ∨ c.toNat = 13

/-- Model of `strings.TrimSpace`. -/
def strTrim (s : String) : String :=
  String.mk (((s.data.dropWhile isSpaceChar).reverse.dropWhile isSpaceChar).reverse)

/-- Split a character list at every occurrence of `sep`
(`strings.Split` with a one-character separator). -/
def splitCharsOn (sep : Char) : List Char → List (List Char)
  | [] => [[]]
  | c :: rest =>
    let r := splitCharsOn sep rest
    if c = sep then [] :: r
    else
      match r with
      | h :: t => (c :: h) :: t
      | [] => [[c]]

/-- Model of `strings.Split(s, sep)` for a one-character separator. -/
def strSplitOn (s : String) (sep : Char) : List String :=
  (splitCharsOn sep s.data).map String.mk

/-- Match `pat` as a prefix of `l`, returning the remainder on success. -/
def stripPat : List Char → List Char → Option (List Char)
  | [], rest => some rest
  | _ :: _, [] => none
  | p :: ps, c :: cs => if c = p then stripPat ps cs else none

/-- Replace every non-overlapping, leftmost occurrence of `pat` by
`repl`.  The fuel argument only bounds recursion depth: each step
consumes at least one character when `pat` is non-empty, so with
`fuel = l.length` the zero-fuel fallback is unreachable. -/
def replaceGo (pat repl : List Char) : Nat → List Char → List Char
  | _, [] => []
  | 0, l => l
  | fuel + 1, c :: rest =>
    match stripPat pat (c :: rest) with
    | some rest2 => repl ++ replaceGo pat repl fuel rest2
    | none => c :: replaceGo pat repl fuel rest

/-- Model of `strings.ReplaceAll` (the engine never passes an empty
pattern; an empty pattern is modelled as the identity). -/
def strReplace (s pat repl : String) : String :=
  match pat.data with
  | [] => s
  | p :: ps => String.mk (replaceGo (p :: ps) repl.data s.data.length s.data)

/-- Digits-only parse of a character list (used for 4-digit years). -/
def parseDigits (l : List Char) : Option Nat :=
  if l ≠ [] ∧ l.all (fun c => 48 ≤ c.toNat ∧ c.toNat ≤ 57) then
    some (l.foldl (fun n c => n * 10 + (c.toNat - 48)) 0)
  else none

/-- Distinct elements of a list in first-seen order (the order in which a
Go `map`+`order`-slice idiom records keys). -/
def firstSeen (l : List String) : List String :=
  l.foldl (fun acc a => if a ∈ acc then acc else acc ++ [a]) []

/-- Association-list lookup with `""` default (Go `map[string]string` read). -/
def lookupD : List (String × String) → String → String
  | [], _ => ""
  | (k2, v) :: rest, k => if k2 = k then v else lookupD rest k

/-- Association-list lookup with `0` default (Go `map[string]float64` read). -/
def lookupM : List (String × Rat) → String → Rat
  | [], _ => 0
  | (k2, v) :: rest, k => if k2 = k then v else lookupM rest k

/-- Association-list lookup returning presence (Go `v, ok := m[k]`). -/
def lookupRate : List (String × Rat) → String → Option Rat
  | [], _ => none
  | (k2, v) :: rest, k => if k2 = k then some v else lookupRate rest k

/-! ## Data model (engine/types.go) -/

/-- `Record` — a single data row with string dimensions and numeric
measures. -/
structure Record where
  dimensions : List (String × String) := []
  measures : List (String × Rat) := []
deriving Repr

/-- `Filters` — dimension name to allowed values; OR within a dimension,
AND across dimensions. -/
structure Filters where
  dimensions : List (String × List String) := []
deriving Repr

/-- `Filters.IsEmpty` — true if no filters are set. -/
def Filters.IsEmpty (f : Filters) : Bool :=
  f.dimensions.all (fun p => p.2.isEmpty)

/-! ## RecordView (engine/view.go)

The closed set of view variants the engine constructs.  The generic
`DomainView` adapter is observationally a `slice` view (it reads typed
structs through accessor functions); it is represented by `slice`. -/

/-- `RecordView` — indexed, read-only access to a dataset. -/
inductive RecordView where
  | slice (records : List Record)
  | sub (parent : RecordView) (indices : List Nat)
  | concat (a b : RecordView)
  | currency (parent : RecordView) (measure dimension baseCurrency : String)
      (rates : List (String × Rat))
deriving Repr

/-- `Len()` for each view variant. -/
def RecordView.len : RecordView → Nat
  | .slice records => records.length
  | .sub _ indices => indices.length
  | .concat a b => a.len + b.len
  | .currency parent _ _ _ _ => parent.len

/-- `Dimension(i, key)` for each view variant; out-of-range reads return
`""` exactly as the Go bounds checks do. -/
def RecordView.dimension : RecordView → Nat → String → String
  | .slice records, i, key =>
    match records[i]? with
    | some r => lookupD r.dimensions key
    | none => ""
  | .sub parent indices, i, key =>
    match indices[i]? with
    | some pi => parent.dimension pi key
    | none => ""
  | .concat a b, i, key =>
    if i < a.len then a.dimension i key else b.dimension (i - a.len) key
  | .currency parent _ dim base rates, i, key =>
    if key = dim then
      let orig := parent.dimension i dim
      if orig ≠ base ∧ (lookupRate rates orig).isSome then base else orig
    else parent.dimension i key

/-- `Measure(i, key)` for each view variant; the currency view converts
the configured measure on read when a positive rate is known. -/
def RecordView.measure : RecordView → Nat → String → Rat
  | .slice records, i, key =>
    match records[i]? with
    | some r => lookupM r.measures key
    | none => 0
  | .sub parent indices, i, key =>
    match indices[i]? with
    | some pi => parent.measure pi key
    | none => 0
  | .concat a b, i, key =>
    if i < a.len then a.measure i key else b.measure (i - a.len) key
  | .currency parent meas dim base rates, i, key =>
    let val := parent.measure i key
    if key = meas then
      let c := parent.dimension i dim
      if c ≠ base then
        match lookupRate rates c with
        | some rate => if rate > 0 then val * rate else val
        | none => val
      else val
    else val

/-- `DimensionKeys()` — for a slice view, the first-seen dimension keys
across records (`cacheKeys`); composite views delegate. -/
def RecordView.dimensionKeys : RecordView → List String
  | .slice records => firstSeen (records.flatMap (fun r => r.dimensions.map Prod.fst))
  | .sub parent _ => parent.dimensionKeys
  | .concat a _ => a.dimensionKeys
  | .currency parent _ _ _ _ => parent.dimensionKeys

/-- `MeasureKeys()` — first-seen measure keys. -/
def RecordView.measureKeys : RecordView → List String
  | .slice records => firstSeen (records.flatMap (fun r => r.measures.map Prod.fst))
  | .sub parent _ => parent.measureKeys
  | .concat a _ => a.measureKeys
  | .currency parent _ _ _ _ => parent.measureKeys

/-! ## Filter engine (engine/filters.go) -/

/-- `toLowerSet` — lowercase lookup set (membership in the list). -/
def toLowerSet (items : List String) : List String :=
  items.map strLower

/-- The per-record test of `ApplyFilters`: the record at index `i` passes
if its lowercased value is in the lowered set for every constrained
dimension. -/
def filterPass (view : RecordView) (sets : List (String × List String)) (i : Nat) : Bool :=
  sets.all (fun p => p.2.contains (strLower (view.dimension i p.1)))

/-- `ApplyFilters` — returns a sub-view of records matching all dimension
filters; empty filters are the identity. -/
def ApplyFilters (view : RecordView) (filters : Filters) : RecordView :=
  if filters.IsEmpty then view
  else
    let sets := (filters.dimensions.filter (fun p => ¬ p.2.isEmpty)).map
      (fun p => (p.1, toLowerSet p.2))
    if sets.isEmpty then view
    else .sub view ((List.range view.len).filter (filterPass view sets))

/-! ## Aggregators (engine/aggregators.go) -/

/-- `SumMeasure` — sum of a named measure across a view. -/
def SumMeasure (view : RecordView) (measure : String) : Rat :=
  ((List.range view.len).map (fun i => view.measure i measure)).sum

/-- `AvgMeasure` — average of a named measure. -/
def AvgMeasure (view : RecordView) (measure : String) : Rat :=
  if view.len = 0 then 0 else SumMeasure view measure / view.len

/-- `MaxMeasure` — largest value of a named measure (0 on an empty view;
the Go found-flag loop computes the running maximum seeded by the first
value). -/
def MaxMeasure (view : RecordView) (measure : String) : Rat :=
  match (List.range view.len).map (fun i => view.measure i measure) with
  | [] => 0
  | v :: rest => rest.foldl (fun m x => if x > m then x else m) v

/-- `MinMeasure` — smallest value of a named measure (0 on an empty view). -/
def MinMeasure (view : RecordView) (measure : String) : Rat :=
  match (List.range view.len).map (fun i => view.measure i measure) with
  | [] => 0
  | v :: rest => rest.foldl (fun m x => if x < m then x else m) v

/-! ## Month parsing and formatting (engine/aggregators.go) -/

/-- The abbreviated month names `time.Parse("Jan-2006", …)` accepts
(matching is case-insensitive). -/
def monthNames : List String :=
  ["jan", "feb", "mar", "apr", "may", "jun", "jul", "aug", "sep", "oct", "nov", "dec"]

/-- One-based month number of an abbreviated month name. -/
def monthIndex (s : String) : Option Nat :=
  match monthNames.findIdx? (fun m => m = strLower s) with
  | some i => some (i + 1)
  | none => none

/-- Exactly-four-digit year (`time.Parse` layout `2006`). -/
def parseYear4 (s : String) : Option Nat :=
  if s.data.length = 4 then parseDigits s.data else none

/-- `ParseMonthOrder` — converts `"Jan-2026"` into the sortable integer
`202601`; unparseable input yields 0.  (`time.Parse("Jan-2006", …)`
succeeds exactly on `month-name ++ "-" ++ 4 digits`; the Go fallback
`time.Parse` after a failed two-way split can never succeed, since any
match of the layout contains exactly one dash.) -/
def ParseMonthOrder (monthStr : String) : Int :=
  match strSplitOn monthStr (Char.ofNat 45) with
  | [mon, year] =>
    match monthIndex mon, parseYear4 year with
    | some m, some y => (y : Int) * 100 + (m : Int)
    | _, _ => 0
  | _ => 0

/-- `parseSortableDate` — month order when parseable, otherwise a bare
4-digit year times 100, otherwise 0. -/
def parseSortableDate (key : String) : Int :=
  if ParseMonthOrder key > 0 then ParseMonthOrder key
  else
    match parseYear4 key with
    | some y => (y : Int) * 100
    | none => 0

/-- Left-pad to two digits (Go `%02d`). -/
def pad2 (n : Nat) : String :=
  if n < 10 then "0" ++ toString n else toString n

/-- Left-pad to three digits (Go `%03d`). -/
def pad3 (n : Nat) : String :=
  if n < 10 then "00" ++ toString n
  else if n < 100 then "0" ++ toString n
  else toString n

/-- Insert a comma after every third digit of a reversed digit list
(the grouping loop of `FormatCurrency` on the digit string). -/
def commaEvery3 : List Char → Nat → List Char
  | [], _ => []
  | c :: rest, k =>
    if k = 3 then Char.ofNat 44 :: c :: commaEvery3 rest 1
    else c :: commaEvery3 rest (k + 1)

/-- Comma-group the decimal digits of a natural number, as the loop in
`FormatCurrency` does with the digit string. -/
def groupDigits (n : Nat) : String :=
  String.mk ((commaEvery3 (toString n).data.reverse 0).reverse)

/-- `FormatCurrency` — currency prefix, comma-grouped integer part, and a
half-up-rounded two-digit decimal part. -/
def FormatCurrency (amount : Rat) (currency : String) : String :=
  let negative := amount < 0
  let a := if negative then -amount else amount
  let intPart : Nat := a.floor.toNat
  let decPart : Nat := (((a - a.floor) * 100) + 1 / 2).floor.toNat
  let result := currency ++ " " ++ groupDigits intPart ++ "." ++ pad2 decPart
  if negative then "-" ++ result else result

/-- `FormatInt` — integer with comma separators (the Go recursion
`FormatInt(n/1000) ++ "," ++ %03d(n%1000)` produces exactly the
comma-grouped digit string of the absolute value). -/
def FormatInt (n : Int) : String :=
  if n < 0 then "-" ++ groupDigits (-n).toNat else groupDigits n.toNat

/-- Rounding half away from zero (Go `math.Round`). -/
def ratRound (q : Rat) : Int :=
  if q < 0 then -((-q + 1 / 2).floor) else (q + 1 / 2).floor

/-- `RoundTo2` — round to two decimal places. -/
def RoundTo2 (v : Rat) : Rat :=
  (ratRound (v * 100) : Rat) / 100

/-- One-decimal fixed formatting of a non-negative rational
(decimal model of Go `%.1f`). -/
def fmtF1pos (q : Rat) : String :=
  let n := (q * 10 + 1 / 2).floor.toNat
  toString (n / 10) ++ "." ++ toString (n % 10)

/-- One-decimal fixed formatting (decimal model of Go `%.1f`). -/
def fmtF1 (q : Rat) : String :=
  if q < 0 then "-" ++ fmtF1pos (-q) else fmtF1pos q

/-- `LabelForDimension` — capitalized label (first character upper-cased). -/
def LabelForDimension (dimension : String) : String :=
  match dimension.data with
  | [] => ""
  | c :: rest =>
    String.mk ((if 97 ≤ c.toNat ∧ c.toNat ≤ 122 then Char.ofNat (c.toNat - 32) else c) :: rest)

/-- `LabelForAggregation` — human-readable label for an aggregation. -/
def LabelForAggregation (aggregation : String) : String :=
  match aggregation with
  | "sum" => "Amount"
  | "count" => "Count"
  | "avg" => "Average"
  | "max" => "Maximum"
  | "min" => "Minimum"
  | _ => "Value"

/-! ## Grouping (engine/aggregators.go) -/

/-- `Group` — a grouped/aggregated result (recursive through `SubGroups`). -/
inductive Group where
  | mk (key label : String) (value : Rat) (count : Nat) (subGroups : List Group)
      (view : RecordView)

/-- The grouping key. -/
def Group.key : Group → String
  | .mk k _ _ _ _ _ => k

/-- The display label. -/
def Group.label : Group → String
  | .mk _ l _ _ _ _ => l

/-- The computed aggregate value. -/
def Group.value : Group → Rat
  | .mk _ _ v _ _ _ => v

/-- The record count. -/
def Group.count : Group → Nat
  | .mk _ _ _ c _ _ => c

/-- The nested sub-groups (two-level grouping). -/
def Group.subGroups : Group → List Group
  | .mk _ _ _ _ s _ => s

/-- The sub-view of records belonging to the group. -/
def Group.view : Group → RecordView
  | .mk _ _ _ _ _ v => v

/-- `getDimensionValue` — dimension read with the virtual `year`
dimension derived from `"Mon-YYYY"` values of `month`.  (The Go
`time.Parse` fallback after a failed two-way split is unreachable: any
string the layout accepts has exactly one dash.) -/
def getDimensionValue (view : RecordView) (i : Nat) (dimension : String) : String :=
  if dimension = "year" then
    match strSplitOn (view.dimension i "month") (Char.ofNat 45) with
    | [_, y] => y
    | _ => view.dimension i dimension
  else view.dimension i dimension

/-- `groupBySingle` — partition by first-seen distinct value of one
dimension; each partition is a sub-view of the matching indices in
order. -/
def groupBySingle (view : RecordView) (dimension : String) : List Group :=
  let keys := firstSeen ((List.range view.len).map (fun i => getDimensionValue view i dimension))
  keys.map (fun k =>
    Group.mk k k 0 0 []
      (.sub view ((List.range view.len).filter (fun i => getDimensionValue view i dimension = k))))

/-- The aggregation-kind dispatch inside `aggregateGroup` (the `"none"`
kind passes the old value through). -/
def aggValue (view : RecordView) (oldValue : Rat) (count : Nat)
    (measure aggregation : String) : Rat :=
  match aggregation with
  | "sum" => SumMeasure view measure
  | "count" => (count : Rat)
  | "avg" => AvgMeasure view measure
  | "max" => MaxMeasure view measure
  | "min" => MinMeasure view measure
  | "list" => SumMeasure view measure
  | "none" => oldValue
  | _ => SumMeasure view measure

/-- `aggregateGroup` — set the count and the aggregation-specific value
(the value is left untouched for an empty group). -/
def aggregateGroup (g : Group) (measure aggregation : String) : Group :=
  let count := g.view.len
  if count = 0 then Group.mk g.key g.label g.value count g.subGroups g.view
  else
    Group.mk g.key g.label (aggValue g.view g.value count measure aggregation)
      count g.subGroups g.view

/-- Aggregate a group and its immediate sub-groups. -/
def aggregateAll (g : Group) (measure aggregation : String) : Group :=
  let g2 := aggregateGroup g measure aggregation
  Group.mk g2.key g2.label g2.value g2.count
    (g2.subGroups.map (fun sg => aggregateGroup sg measure aggregation)) g2.view

/-- Descending by value. -/
def relValueDesc (a b : Group) : Prop := b.value ≤ a.value

/-- Ascending by value. -/
def relValueAsc (a b : Group) : Prop := a.value ≤ b.value

/-- Chronological by parsed key. -/
def relDateAsc (a b : Group) : Prop := parseSortableDate a.key ≤ parseSortableDate b.key

/-- Reverse chronological by parsed key. -/
def relDateDesc (a b : Group) : Prop := parseSortableDate b.key ≤ parseSortableDate a.key

/-- Alphabetical ascending, case-insensitive. -/
def relAlphaAsc (a b : Group) : Prop := strLower a.key ≤ strLower b.key

/-- Alphabetical descending, case-insensitive. -/
def relAlphaDesc (a b : Group) : Prop := strLower b.key ≤ strLower a.key

instance : DecidableRel relValueDesc := fun a b => inferInstanceAs (Decidable (_ ≤ _))

instance : DecidableRel relValueAsc := fun a b => inferInstanceAs (Decidable (_ ≤ _))

instance : DecidableRel relDateAsc := fun a b => inferInstanceAs (Decidable (_ ≤ _))

instance : DecidableRel relDateDesc := fun a b => inferInstanceAs (Decidable (_ ≤ _))

instance : DecidableRel relAlphaAsc := fun a b => inferInstanceAs (Decidable (_ ≤ _))

instance : DecidableRel relAlphaDesc := fun a b => inferInstanceAs (Decidable (_ ≤ _))

/-- `SortGroups` — sort by the requested mode (Go uses an unstable
`sort.Slice`; the embedding uses a stable insertion sort, a deterministic
refinement). -/
def SortGroups (groups : List Group) (sortBy : String) : List Group :=
  if sortBy = "value_desc" ∨ sortBy = "amount_desc" then groups.insertionSort relValueDesc
  else if sortBy = "value_asc" ∨ sortBy = "amount_asc" then groups.insertionSort relValueAsc
  else if sortBy = "chronological" ∨ sortBy = "date_asc" then groups.insertionSort relDateAsc
  else if sortBy = "reverse_chronological" ∨ sortBy = "date_desc" then
    groups.insertionSort relDateDesc
  else if sortBy = "label_asc" ∨ sortBy = "alpha_asc" then groups.insertionSort relAlphaAsc
  else if sortBy = "label_desc" then groups.insertionSort relAlphaDesc
  else groups

/-- `GroupAndAggregate` — the grouping pipeline:
group → aggregate → sort → limit. -/
def GroupAndAggregate (view : RecordView) (groupBy : List String)
    (measure aggregation sortBy : String) (limit : Int) : List Group :=
  if view.len = 0 then []
  else
    let groups :=
      match groupBy with
      | [] => [Group.mk "all" "Total" 0 0 [] view]
      | [d] => groupBySingle view d
      | d1 :: d2 :: _ =>
        (groupBySingle view d1).map (fun (g : Group) =>
          Group.mk g.key g.label g.value g.count (groupBySingle g.view d2) g.view)
    let aggregated := groups.map (fun g => aggregateAll g measure aggregation)
    let sorted := SortGroups aggregated sortBy
    if limit > 0 ∧ (sorted.length : Int) > limit then sorted.take limit.toNat
    else sorted

/-! ## Text result types (engine/types.go) -/

/-- `GrowthData` — change-over-time metrics. -/
structure GrowthData where
  earliestValue : Rat := 0
  latestValue : Rat := 0
  earliestPeriod : String := ""
  latestPeriod : String := ""
  changeAmount : Rat := 0
  changePercent : Rat := 0
  direction : String := ""
deriving Repr, DecidableEq

/-- `RatioData` — cross-group percentage comparison. -/
structure RatioData where
  numeratorTotal : Rat := 0
  denominatorTotal : Rat := 0
  percentage : Rat := 0
  numeratorLabel : String := ""
  denominatorLabel : String := ""
deriving Repr, DecidableEq

/-- `TextData` — structured data for text answers. -/
structure TextData where
  value : String := ""
  rawValue : Rat := 0
  unit : String := ""
  period : String := ""
  count : Nat := 0
  growth : Option GrowthData := none
  ratio : Option RatioData := none
deriving Repr, DecidableEq

/-! ## Period derivation and growth (engine/text_builder.go) -/

/-- The distinct non-empty `month` values of a view, in first-seen order
(the key set of the Go `monthTotals` / `months` maps). -/
def distinctMonths (view : RecordView) : List String :=
  firstSeen (((List.range view.len).map (fun i => view.dimension i "month")).filter
    (fun m => m ≠ ""))

/-- Accumulator of the earliest/latest scan in `DerivePeriod`. -/
structure PeriodAcc where
  earliest : String
  earliestOrder : Int
  latest : String
  latestOrder : Int

/-- One step of the earliest/latest scan (strict comparisons, as in the
Go loop after the first element). -/
def periodStep (acc : PeriodAcc) (m : String) : PeriodAcc :=
  let o := ParseMonthOrder m
  let acc1 :=
    if o < acc.earliestOrder then
      { acc with earliest := m, earliestOrder := o }
    else acc
  if o > acc1.latestOrder then { acc1 with latest := m, latestOrder := o } else acc1

/-- `DerivePeriod` — human-readable period string: `"No data"` for an
empty view, `"All time"` when no `month` values exist, the single month,
or `"earliest – latest"` by parsed order. -/
def DerivePeriod (view : RecordView) : String :=
  if view.len = 0 then "No data"
  else
    match distinctMonths view with
    | [] => "All time"
    | [m] => m
    | m0 :: m1 :: rest =>
      let st := (m1 :: rest).foldl periodStep
        ⟨m0, ParseMonthOrder m0, m0, ParseMonthOrder m0⟩
      st.earliest ++ " – " ++ st.latest

/-- Total of the target measure over the records of one month
(the value accumulated into the Go `monthTotals` map). -/
def monthTotal (view : RecordView) (measure m : String) : Rat :=
  (((List.range view.len).filter (fun i => view.dimension i "month" = m)).map
    (fun i => view.measure i measure)).sum

/-- One entry of the per-month table built by `BuildGrowthText`. -/
structure GrowthEntry where
  month : String
  order : Int
  total : Rat
deriving Repr, DecidableEq

/-- Comparison by parsed month order (sort key of `BuildGrowthText`). -/
def geLe (a b : GrowthEntry) : Prop := a.order ≤ b.order

instance : DecidableRel geLe := fun _ _ => inferInstanceAs (Decidable (_ ≤ _))

instance : IsTotal GrowthEntry geLe := ⟨fun a b => Int.le_total a.order b.order⟩

instance : IsTrans GrowthEntry geLe := ⟨fun _ _ _ h1 h2 => le_trans h1 h2⟩

/-- The per-month entries of `BuildGrowthText` in first-seen month order. -/
def growthEntries (view : RecordView) (measure : String) : List GrowthEntry :=
  (distinctMonths view).map (fun m => ⟨m, ParseMonthOrder m, monthTotal view measure m⟩)

/-- The chronologically sorted per-month entries. -/
def growthSorted (view : RecordView) (measure : String) : List GrowthEntry :=
  (growthEntries view measure).insertionSort geLe

/-- The earliest entry after sorting. -/
def growthEarliest (view : RecordView) (measure : String) : GrowthEntry :=
  (growthSorted view measure).headD ⟨"", 0, 0⟩

/-- Last element with default (the Go `entries[len(entries)-1]`). -/
def lastD (l : List GrowthEntry) (d : GrowthEntry) : GrowthEntry :=
  match l with
  | [] => d
  | [a] => a
  | _ :: b :: t => lastD (b :: t) d

/-- The latest entry after sorting. -/
def growthLatest (view : RecordView) (measure : String) : GrowthEntry :=
  lastD (growthSorted view measure) ⟨"", 0, 0⟩

/-- The insufficient-data branch of `BuildGrowthText` (fewer than two
distinct months): the view's total with an `"insufficient data"`
direction. -/
def growthInsufficient (view : RecordView) (measure unit : String) : TextData :=
  let total := SumMeasure view measure
  let period := DerivePeriod view
  let g : GrowthData :=
    { earliestValue := total, latestValue := total,
      earliestPeriod := period, latestPeriod := period,
      changeAmount := 0, changePercent := 0, direction := "insufficient data" }
  { value := FormatCurrency total unit, rawValue := total, unit := unit,
    period := period, count := view.len, growth := some g }

/-- The main branch of `BuildGrowthText`: earliest/latest totals, change,
change percent (zero when the earliest total is zero), and the ±0.5
deadband classification of the direction. -/
def growthCompute (view : RecordView) (measure unit : String) : TextData :=
  let earliest := growthEarliest view measure
  let latest := growthLatest view measure
  let changeAmount := latest.total - earliest.total
  let changePercent := if earliest.total ≠ 0 then changeAmount / earliest.total * 100 else 0
  let direction :=
    if changePercent > 1 / 2 then "increased"
    else if changePercent < -(1 / 2) then "decreased"
    else "unchanged"
  let absPercent := if changePercent < 0 then -changePercent else changePercent
  let displayValue :=
    if direction = "increased" then "↑ " ++ fmtF1pos absPercent ++ "%"
    else if direction = "decreased" then "↓ " ++ fmtF1pos absPercent ++ "%"
    else "→ No change"
  let g : GrowthData :=
    { earliestValue := earliest.total, latestValue := latest.total,
      earliestPeriod := earliest.month, latestPeriod := latest.month,
      changeAmount := changeAmount, changePercent := changePercent,
      direction := direction }
  { value := displayValue, rawValue := changePercent, unit := unit,
    period := earliest.month ++ " – " ++ latest.month, count := view.len,
    growth := some g }

/-- `BuildGrowthText` — growth metrics from chronological month data. -/
def BuildGrowthText (view : RecordView) (measure unit : String) : TextData :=
  if view.len = 0 then
    { value := "No data", unit := unit, period := "No data", count := 0 }
  else if (distinctMonths view).length < 2 then growthInsufficient view measure unit
  else growthCompute view measure unit

/-- A concrete two-month view matching the spec's growth example. -/
def growthSampleView : RecordView :=
  .slice [{ dimensions := [("month", "Jan-2026")], measures := [("amount", 1000)] },
          { dimensions := [("month", "Feb-2026")], measures := [("amount", 1200)] }]

/-! ## Query, result, chart and table types (engine/types.go) -/

/-- `QuerySpec` — the structured computation request. -/
structure QuerySpec where
  intent : String := ""
  filters : Filters := {}
  compareFilters : Option Filters := none
  aggregation : String := ""
  measure : String := ""
  groupBy : List String := []
  sortBy : String := ""
  limit : Int := 0
  visualize : String := ""
  title : String := ""
  reply : String := ""
  confidence : Rat := 0

/-- `ChartPoint` — a single data point. -/
structure ChartPoint where
  label : String := ""
  value : Rat := 0
deriving Repr, DecidableEq

/-- `ChartSeries` — a data series. -/
structure ChartSeries where
  name : String := ""
  data : List ChartPoint := []
  color : String := ""
deriving Repr, DecidableEq

/-- `ChartConfig` — how to render a chart. -/
structure ChartConfig where
  chartType : String := ""
  title : String := ""
  xAxis : String := ""
  yAxis : String := ""
  series : List ChartSeries := []
  colors : List String := []
  showLegend : Bool := false
  showGrid : Bool := false
deriving Repr, DecidableEq

/-- `Column` — a table column. -/
structure Column where
  key : String := ""
  label : String := ""
  type : String := ""
  align : String := ""
deriving Repr, DecidableEq

/-- `Summary` — table totals (the Go `map[string]string` is an
association list in source order). -/
structure Summary where
  label : String := ""
  values : List (String × String) := []
deriving Repr, DecidableEq

/-- `TableData` — how to render a table. -/
structure TableData where
  title : String := ""
  columns : List Column := []
  rows : List (List String) := []
  summary : Option Summary := none
deriving Repr, DecidableEq

/-- `Result` — the engine's render-ready output (`Data` only ever holds a
`*TextData` in the engine, hence `Option TextData`). -/
structure Result where
  success : Bool := false
  type : String := ""
  reply : String := ""
  title : String := ""
  summary : String := ""
  chartConfig : Option ChartConfig := none
  tableData : Option TableData := none
  data : Option TextData := none
  displayUnit : String := ""
  shouldConvert : Bool := false
  errors : List String := []
deriving Repr, DecidableEq

/-! ## Chart builder (engine/chart_builder.go) -/

/-- The fixed color palette. -/
def defaultColors : List String :=
  ["#4F46E5", "#10B981", "#F59E0B", "#EF4444", "#8B5CF6",
   "#06B6D4", "#EC4899", "#84CC16", "#F97316", "#6366F1"]

/-- `hasSubGroups` — at least one group has sub-groups. -/
def hasSubGroups (groups : List Group) : Bool :=
  groups.any (fun g => ¬ g.subGroups.isEmpty)

/-- `buildSingleSeries` — one series over all groups. -/
def buildSingleSeries (groups : List Group) (seriesName : String) : List ChartSeries :=
  let name := if seriesName = "" then "Value" else seriesName
  [{ name := name,
     data := groups.map (fun g => { label := g.label, value := RoundTo2 g.value }) }]

/-- Sub-group value lookup with 0 default (the Go per-group
`map[string]float64`; a later duplicate key would win, as in a map
write). -/
def subLookup (subs : List Group) (k : String) : Rat :=
  match subs.reverse.find? (fun sg => sg.key = k) with
  | some sg => sg.value
  | none => 0

/-- `buildMultiSeries` — one series per distinct sub-group key, plotted
across the primary groups (missing values read as 0). -/
def buildMultiSeries (groups : List Group) : List ChartSeries :=
  let subKeys := firstSeen (groups.flatMap (fun g => g.subGroups.map Group.key))
  subKeys.enum.map (fun p =>
    { name := p.2,
      data := groups.map (fun g =>
        { label := g.label, value := RoundTo2 (subLookup g.subGroups p.2) }),
      color := defaultColors.getD (p.1 % defaultColors.length) "" })

/-- `assignColors` — cyclic palette assignment. -/
def assignColors (count : Nat) : List String :=
  (List.range count).map (fun i => defaultColors.getD (i % defaultColors.length) "")

/-- `BuildChart` — chart config from spec and groups (`none` models the
Go `nil` on an empty group list). -/
def BuildChart (spec : QuerySpec) (groups : List Group) : Option ChartConfig :=
  if groups.isEmpty then none
  else
    let chartType := if spec.visualize = "" then "bar" else spec.visualize
    let series :=
      if spec.groupBy.length ≥ 2 ∧ hasSubGroups groups then buildMultiSeries groups
      else buildSingleSeries groups spec.title
    let cc : ChartConfig :=
      { chartType := chartType, title := spec.title,
        xAxis := if spec.groupBy.length > 0 then LabelForDimension (spec.groupBy.headD "") else "",
        yAxis := LabelForAggregation spec.aggregation,
        series := series, colors := assignColors series.length,
        showLegend := true, showGrid := chartType ≠ "pie" }
    some cc

/-! ## Table and text builders (engine/table_builder.go, text_builder.go) -/

/-- Two-decimal fixed formatting of a non-negative rational
(decimal model of Go `%.2f`). -/
def fmtF2pos (q : Rat) : String :=
  let n := (q * 100 + 1 / 2).floor.toNat
  toString (n / 100) ++ "." ++ pad2 (n % 100)

/-- Two-decimal fixed formatting (decimal model of Go `%.2f`). -/
def fmtF2 (q : Rat) : String :=
  if q < 0 then "-" ++ fmtF2pos (-q) else fmtF2pos q

/-- `buildListTable` — one row per record, one column per dimension key
plus the measure column, with a totals summary. -/
def buildListTable (spec : QuerySpec) (view : RecordView) (measure unit : String) : TableData :=
  if view.len = 0 then { title := spec.title, columns := [], rows := [] }
  else
    let dimKeys := view.dimensionKeys
    let columns := dimKeys.map (fun key =>
        ({ key := key, label := LabelForDimension key, type := "text",
           align := "left" } : Column)) ++
      [{ key := measure, label := LabelForDimension measure, type := "number",
         align := "right" }]
    let rows := (List.range view.len).map (fun i =>
      dimKeys.map (fun key => view.dimension i key) ++ [fmtF2 (view.measure i measure)])
    let total := SumMeasure view measure
    let s : Summary :=
      { label := "Total (" ++ toString view.len ++ " records)",
        values := [(measure, FormatCurrency total unit)] }
    { title := spec.title, columns := columns, rows := rows, summary := some s }

/-- `buildAggregatedTable` — one row per group with label, value and
count, plus a totals summary. -/
def buildAggregatedTable (spec : QuerySpec) (groups : List Group) (measure unit : String) :
    TableData :=
  if groups.isEmpty then { title := spec.title, columns := [], rows := [] }
  else
    let groupLabel :=
      if spec.groupBy.length > 0 then LabelForDimension (spec.groupBy.headD "") else "Group"
    let valueLabel := LabelForAggregation spec.aggregation
    let columns : List Column :=
      [{ key := "group", label := groupLabel, type := "text", align := "left" },
       { key := "value", label := valueLabel, type := "number", align := "right" },
       { key := "count", label := "Count", type := "number", align := "center" }]
    let rows := groups.map (fun g => [g.label, fmtF2 g.value, toString g.count])
    let totalValue := (groups.map Group.value).sum
    let totalCount := (groups.map Group.count).sum
    let s : Summary :=
      { label := "Total",
        values := [("value", FormatCurrency totalValue unit),
                   ("count", toString totalCount)] }
    { title := spec.title, columns := columns, rows := rows, summary := some s }

/-- `BuildTable` — dispatch between list mode and aggregated mode. -/
def BuildTable (spec : QuerySpec) (groups : List Group) (view : RecordView)
    (measure unit : String) : TableData :=
  if spec.aggregation = "list" then buildListTable spec view measure unit
  else buildAggregatedTable spec groups measure unit

/-- `BuildText` — a single formatted value with period and count; growth
queries route through the growth analyzer. -/
def BuildText (spec : QuerySpec) (_groups : List Group) (view : RecordView)
    (measure unit : String) : TextData :=
  if view.len = 0 then
    { value := "0", rawValue := 0, unit := unit, period := DerivePeriod view, count := 0 }
  else if spec.aggregation = "growth" then BuildGrowthText view measure unit
  else
    let value :=
      if spec.aggregation = "sum" then SumMeasure view measure
      else if spec.aggregation = "count" then (view.len : Rat)
      else if spec.aggregation = "avg" then AvgMeasure view measure
      else if spec.aggregation = "max" then MaxMeasure view measure
      else if spec.aggregation = "min" then MinMeasure view measure
      else SumMeasure view measure
    let formatted :=
      if spec.aggregation = "count" then FormatInt view.len
      else FormatCurrency value unit
    { value := formatted, rawValue := value, unit := unit,
      period := DerivePeriod view, count := view.len }

/-! ## Placeholder resolution (engine/executor.go) -/

/-- Characters a placeholder body may contain (`[a-z_]`). -/
def phIdentChar (c : Char) : Bool :=
  (97 ≤ c.toNat ∧ c.toNat ≤ 122) ∨ c.toNat = 95

/-- Remove every occurrence of `\x7b[a-z_]+\x7d` (leftmost,
non-overlapping), the effect of the placeholder-stripping regex.  The
fuel only bounds recursion depth: each step consumes at least one
character, so with `fuel = l.length` the zero-fuel fallback is
unreachable. -/
def stripPHGo : Nat → List Char → List Char
  | _, [] => []
  | 0, l => l
  | fuel + 1, c :: rest =>
    if c = Char.ofNat 123 then
      match rest.span phIdentChar with
      | (ident, c2 :: rest2) =>
        if ident.isEmpty ∨ c2 ≠ Char.ofNat 125 then c :: stripPHGo fuel rest
        else stripPHGo fuel rest2
      | (_, []) => c :: stripPHGo fuel rest
    else c :: stripPHGo fuel rest

/-- The placeholder-stripping pass over a character list. -/
def stripPH (l : List Char) : List Char :=
  stripPHGo l.length l

/-- The trailing cut set of `strings.TrimRight(s, " .—-–")`. -/
def trimPunctChar (c : Char) : Bool :=
  c.toNat = 32 ∨ c.toNat = 46 ∨ c.toNat = 8212 ∨ c.toNat = 45 ∨ c.toNat = 8211

/-- `stripUnresolvedPlaceholders` — drop unresolved placeholders, then
collapse double spaces once, trim, and cut trailing punctuation; if that
empties the string the original text is returned. -/
def stripUnresolvedPlaceholders (text : String) : String :=
  let c1 := String.mk (stripPH text.data)
  let c2 := strReplace c1 "  " " "
  let c3 := strTrim c2
  let c4 := String.mk ((c3.data.reverse.dropWhile trimPunctChar).reverse)
  if c4 = "" then text else c4

/-- `buildDefaultReply` — fallback sentence from count and total. -/
def buildDefaultReply (view : RecordView) (measure unit : String) : String :=
  if view.len = 0 then "No matching records found."
  else
    "Found " ++ toString view.len ++ " records totalling " ++
      FormatCurrency (SumMeasure view measure) unit ++ "."

/-- The running highest-value scan over groups (top group selection). -/
def topGroup (groups : List Group) (g0 : Group) : Group :=
  groups.foldl (fun t g => if g.value > t.value then g else t) g0

/-- `ResolvePlaceholders` — substitute computed quantities into the reply
template and strip what remains unresolved. -/
def ResolvePlaceholders (template : String) (groups : List Group) (view : RecordView)
    (measure unit : String) : String :=
  if template = "" then buildDefaultReply view measure unit
  else
    let total := SumMeasure view measure
    let count := view.len
    let period := DerivePeriod view
    let base := [("{total}", FormatCurrency total unit),
                 ("{count}", toString count),
                 ("{period}", period),
                 ("{currency}", unit)]
    let top :=
      match groups with
      | [] => []
      | g0 :: rest =>
        let t := topGroup rest g0
        [("{top_category}", t.label), ("{top_amount}", FormatCurrency t.value unit)]
    let avg :=
      if count > 0 then [("{avg}", FormatCurrency (total / (count : Rat)) unit)] else []
    let mm :=
      if count > 0 then
        [("{max}", FormatCurrency (MaxMeasure view measure) unit),
         ("{min}", FormatCurrency (MinMeasure view measure) unit)]
      else []
    let growthData := BuildGrowthText view measure unit
    let gr :=
      match growthData.growth with
      | some g =>
        [("{growth_percent}", fmtF1 g.changePercent ++ "%"),
         ("{change_amount}", FormatCurrency g.changeAmount unit),
         ("{earliest_value}", FormatCurrency g.earliestValue unit),
         ("{latest_value}", FormatCurrency g.latestValue unit),
         ("{earliest_period}", g.earliestPeriod),
         ("{latest_period}", g.latestPeriod),
         ("{direction}", g.direction)]
      | none => []
    let result := (base ++ top ++ avg ++ mm ++ gr).foldl
      (fun acc p => strReplace acc p.1 p.2) template
    stripUnresolvedPlaceholders result

/-! ## Executor (engine/executor.go, engine/options.go) -/

/-- The option record produced by `applyOptions` (values of
`WithCurrency` / `WithDefaultMeasure`; `applyOptions` pre-fills the
default measure with `"amount"`, which the resolution chain in `Execute`
also supplies as the last resort). -/
structure EngineConfig where
  baseCurrency : String := ""
  currencyDimension : String := ""
  exchangeRates : List (String × Rat) := []
  defaultMeasure : String := ""

/-- The distinct non-empty currency codes of a view (the key set of the
Go `currencies` map, in first-seen order). -/
def currencyCodes (view : RecordView) (currencyDimension : String) : List String :=
  firstSeen (((List.range view.len).map (fun i => view.dimension i currencyDimension)).filter
    (fun c => c ≠ ""))

/-- `detectDisplayCurrency` — the single shared code with no conversion,
or the base currency with conversion required (also when no code at all
is present). -/
def detectDisplayCurrency (view : RecordView) (currencyDimension baseCurrency : String) :
    String × Bool :=
  if view.len = 0 then (baseCurrency, false)
  else
    match currencyCodes view currencyDimension with
    | [c] => (c, false)
    | _ => (baseCurrency, true)

/-- `inferUnit` — the first record's currency-dimension value. -/
def inferUnit (view : RecordView) (currencyDimension : String) : String :=
  if currencyDimension = "" ∨ view.len = 0 then "" else view.dimension 0 currencyDimension

/-- `buildFilterLabel` — human-readable label from a filter set. -/
def buildFilterLabel (f : Option Filters) : String :=
  match f with
  | none => "All"
  | some f =>
    if f.IsEmpty then "All"
    else
      let parts := (f.dimensions.filter (fun p => ¬ p.2.isEmpty)).map
        (fun p => String.intercalate ", " p.2)
      if parts.isEmpty then "All records"
      else String.intercalate " — " parts

/-- The measure-resolution chain at the top of `Execute`. -/
def resolveMeasure (spec : QuerySpec) (cfg : EngineConfig) : String :=
  if spec.measure ≠ "" then spec.measure
  else if cfg.defaultMeasure ≠ "" then cfg.defaultMeasure
  else "amount"

/-- The currency-normalization step of `Execute` (source lines 74–87):
with a full currency configuration, detect the display currency and wrap
the view in a currency view when conversion is needed; afterwards an
empty display unit falls back to `inferUnit`. -/
def currencyStep (filtered : RecordView) (cfg : EngineConfig) (measure : String) :
    RecordView × String × Bool :=
  let step1 :=
    if cfg.baseCurrency ≠ "" ∧ cfg.currencyDimension ≠ "" ∧ ¬ cfg.exchangeRates.isEmpty then
      let dc := detectDisplayCurrency filtered cfg.currencyDimension cfg.baseCurrency
      if dc.2 then
        (RecordView.currency filtered measure cfg.currencyDimension cfg.baseCurrency
          cfg.exchangeRates, cfg.baseCurrency, true)
      else (filtered, dc.1, false)
    else (filtered, cfg.baseCurrency, false)
  if step1.2.1 = "" then (step1.1, inferUnit step1.1 cfg.currencyDimension, step1.2.2)
  else step1

/-- `executeRatio` — filter the view independently by the primary filters
(denominator) and the compare filters (numerator), sum the measure in
each, and report numerator/denominator × 100 (0 unless the denominator
sum is positive). -/
def executeRatio (spec : QuerySpec) (view : RecordView) (measure : String)
    (cfg : EngineConfig) : Result :=
  let denominator := ApplyFilters view spec.filters
  let numerator := ApplyFilters view (spec.compareFilters.getD {})
  let denomSum := SumMeasure denominator measure
  let numSum := SumMeasure numerator measure
  let pct := if denomSum > 0 then numSum / denomSum * 100 else 0
  let unit :=
    if cfg.baseCurrency ≠ "" then cfg.baseCurrency
    else inferUnit denominator cfg.currencyDimension
  let numLabel := buildFilterLabel spec.compareFilters
  let denomLabel := buildFilterLabel (some spec.filters)
  let displayValue := fmtF1 pct ++ "%"
  let combined := RecordView.concat denominator numerator
  let period := DerivePeriod combined
  let rd : RatioData :=
    { numeratorTotal := numSum, denominatorTotal := denomSum, percentage := pct,
      numeratorLabel := numLabel, denominatorLabel := denomLabel }
  let textData : TextData :=
    { value := displayValue, rawValue := pct, unit := unit, period := period,
      count := numerator.len + denominator.len, ratio := some rd }
  let repl := [("{ratio_percent}", displayValue),
               ("{numerator_total}", FormatCurrency numSum unit),
               ("{denominator_total}", FormatCurrency denomSum unit),
               ("{numerator_label}", numLabel),
               ("{denominator_label}", denomLabel),
               ("{period}", period),
               ("{total}", FormatCurrency numSum unit)]
  let reply := repl.foldl (fun acc p => strReplace acc p.1 p.2) spec.reply
  { success := true, type := "text", reply := reply, data := some textData,
    displayUnit := unit, shouldConvert := false }

/-- Whether a text result carries an insufficient-data growth object
(the type assertion + check in the `"text"` branch of `Execute`). -/
def growthInsufficientFlag (td : TextData) : Bool :=
  match td.growth with
  | some g => g.direction = "insufficient data"
  | none => false

/-- `Execute` — the executor pipeline.  The Go signature
`(*Result, error)` is a pair; every code path returns a `nil` error,
modelled as `none`. -/
def Execute (spec : QuerySpec) (view : RecordView) (cfg : EngineConfig) :
    Result × Option String :=
  let measure := resolveMeasure spec cfg
  if view.len = 0 then
    ({ success := true, type := "text", reply := "No data available to analyze." }, none)
  else if spec.aggregation = "ratio" ∧ spec.compareFilters.isSome then
    (executeRatio spec view measure cfg, none)
  else
    let filtered := ApplyFilters view spec.filters
    if filtered.len = 0 then
      ({ success := true, type := "text",
         reply := "No records match your query filters. Try broadening your search." }, none)
    else
      let cs := currencyStep filtered cfg measure
      let nview := cs.1
      let displayUnit := cs.2.1
      let needsConversion := cs.2.2
      let groups := GroupAndAggregate nview spec.groupBy measure spec.aggregation
        spec.sortBy spec.limit
      if spec.intent = "chart" then
        match BuildChart spec groups with
        | none =>
          ({ success := true, type := "text", reply := "Not enough data to generate a chart.",
             displayUnit := displayUnit, shouldConvert := needsConversion }, none)
        | some cc =>
          ({ success := true, type := "chart",
             reply := ResolvePlaceholders spec.reply groups nview measure displayUnit,
             chartConfig := some cc, displayUnit := displayUnit,
             shouldConvert := needsConversion }, none)
      else if spec.intent = "table" then
        ({ success := true, type := "table",
           reply := ResolvePlaceholders spec.reply groups nview measure displayUnit,
           tableData := some (BuildTable spec groups nview measure displayUnit),
           displayUnit := displayUnit, shouldConvert := needsConversion }, none)
      else if spec.intent = "text" then
        let td := BuildText spec groups nview measure displayUnit
        if spec.aggregation = "growth" ∧ growthInsufficientFlag td then
          ({ success := true, type := "text",
             reply := "Your data shows " ++ td.value ++ " for " ++ td.period ++
               ". Need at least 2 months of data to show trends.",
             data := some td, displayUnit := displayUnit,
             shouldConvert := needsConversion }, none)
        else
          ({ success := true, type := "text",
             reply := ResolvePlaceholders spec.reply groups nview measure displayUnit,
             data := some td, displayUnit := displayUnit,
             shouldConvert := needsConversion }, none)
      else
        ({ success := true, type := "text",
           reply := ResolvePlaceholders spec.reply groups nview measure displayUnit,
           data := some (BuildText spec groups nview measure displayUnit),
           displayUnit := displayUnit, shouldConvert := needsConversion }, none)

/-- A one-record view whose record does not match the ratio filters. -/
def ratioNoMatchView : RecordView :=
  .slice [{ dimensions := [("category", "y")], measures := [("amount", 5)] }]

/-- A ratio query whose primary filters match nothing. -/
def ratioNoMatchSpec : QuerySpec :=
  { aggregation := "ratio", filters := ⟨[("category", ["x"])]⟩,
    compareFilters := some {}, reply := "" }

/-- Two records for the overlap instance: the compare filters match both,
the primary filters only one. -/
def ratioOverlapView : RecordView :=
  .slice [{ dimensions := [("category", "a")], measures := [("amount", 50)] },
          { dimensions := [("category", "b")], measures := [("amount", 100)] }]

/-- A ratio query whose numerator (no compare constraints ⇒ all records)
strictly contains its denominator. -/
def ratioOverlapSpec : QuerySpec :=
  { aggregation := "ratio", filters := ⟨[("category", ["a"])]⟩,
    compareFilters := some ⟨[]⟩, reply := "" }

/-- Records giving a negative denominator sum. -/
def ratioNegView : RecordView :=
  .slice [{ dimensions := [("category", "a")], measures := [("amount", -100)] },
          { dimensions := [("category", "b")], measures := [("amount", 50)] }]

/-- A ratio query whose denominator total is −100. -/
def ratioNegSpec : QuerySpec :=
  { aggregation := "ratio", filters := ⟨[("category", ["a"])]⟩,
    compareFilters := some ⟨[("category", ["b"])]⟩, reply := "" }

/-- A one-record single-currency view. -/
def singleCurrencyView : RecordView :=
  .slice [{ dimensions := [("currency", "USD")], measures := [("amount", 5)] }]

/-- A plain sum query with no filters. -/
def sumSpec : QuerySpec := { intent := "text", aggregation := "sum" }

/-- A full currency configuration whose base differs from the data's
single code. -/
def eurFullCfg : EngineConfig :=
  { baseCurrency := "EUR", currencyDimension := "currency",
    exchangeRates := [("USD", 2)] }

/-- A currency configuration with a base currency but no rate table. -/
def eurNoRatesCfg : EngineConfig :=
  { baseCurrency := "EUR", currencyDimension := "currency" }

/-- A one-record view whose currency dimension is empty. -/
def emptyCodeView : RecordView :=
  .slice [{ dimensions := [("currency", "")], measures := [("amount", 5)] }]

/-! ## Schema discovery: role classification (schema/discover.go) -/

/-- The detected column type. -/
inductive ColumnType where
  | string
  | numeric
  | date
  | bool
deriving Repr, DecidableEq

/-- The classified column role. -/
inductive ColumnRole where
  | dimension
  | measure
  | skipped
deriving Repr, DecidableEq

/-- The fields `classifyRole` writes on a `columnAnalysis` (the
recoverable flag's Go zero value is false). -/
structure RoleResult where
  role : ColumnRole
  skipReason : String := ""
  recoverable : Bool := false
deriving Repr, DecidableEq

/-- `classifyRole` — dimension vs measure vs skip from type and
cardinality.  Inputs are the column stats `analyzeColumn` computed:
`uniqueCount` distinct non-null sampled values, `totalRows` sampled rows,
and the decimal-point flag for numeric columns. -/
def classifyRole (colType : ColumnType) (uniqueCount totalRows : Nat)
    (hasDecimals : Bool) : RoleResult :=
  match colType with
  | .numeric =>
    if uniqueCount = totalRows ∧ totalRows > 10 then
      { role := .skipped, skipReason := "Unique per row — likely an ID column",
        recoverable := false }
    else if hasDecimals then { role := .measure }
    else if uniqueCount < 20 ∧ (uniqueCount : Rat) / (totalRows : Rat) < 3 / 10 then
      { role := .dimension }
    else { role := .measure }
  | .date => { role := .dimension }
  | .bool => { role := .dimension }
  | .string =>
    if uniqueCount = totalRows ∧ totalRows > 10 then
      { role := .skipped, skipReason := "Unique per row — likely an identifier",
        recoverable := false }
    else if uniqueCount > totalRows / 2 ∧ uniqueCount > 50 then
      { role := .skipped,
        skipReason := "High cardinality (" ++ toString uniqueCount ++
          " unique values) — not useful for grouping",
        recoverable := true }
    else { role := .dimension }

/-! ## Schema discovery: hierarchy detection (schema/discover.go) -/

/-- The Go null markers of `analyzeColumn` (checked after trimming). -/
def isNullCell (s : String) : Bool :=
  s = "" ∨ s = "null" ∨ s = "NULL" ∨ s = "N/A" ∨ s = "n/a"

/-- The non-null trimmed values of one column over the sampled rows
(rows too short for the column count as null). -/
def colValues (rows : List (List String)) (idx : Nat) : List String :=
  ((rows.filter (fun row => idx < row.length)).map
    (fun row => strTrim (row.getD idx ""))).filter (fun v => ¬ isNullCell v)

/-- The distinct-value count `analyzeColumn` assigns to a column. -/
def colUnique (rows : List (List String)) (idx : Nat) : Nat :=
  (firstSeen (colValues rows idx)).length

/-- One dimension-role column as `detectHierarchies` sees it
(key, column index, and `analyzeColumn`'s unique count). -/
structure DimCol where
  key : String
  index : Nat
  uniqueCount : Nat
deriving Repr, DecidableEq

/-- Lookup by key over the dimension columns; a later duplicate key wins,
as with the Go `dimIndices`/`dimUniques` map builds. -/
def lookupDimCol (cols : List DimCol) (k : String) : Option DimCol :=
  cols.reverse.find? (fun c => c.key = k)

/-- One row of the functional-dependency scan: rows too short for either
column, or with an empty trimmed child or parent cell, are skipped; a
child value mapping to two different parent values fails the scan
(after a failure the Go loop breaks, so the state freezes). -/
def fdStep (childIdx parentIdx : Nat) (st : Bool × List (String × String))
    (row : List String) : Bool × List (String × String) :=
  if st.1 = false then st
  else if childIdx < row.length ∧ parentIdx < row.length then
    let c := strTrim (row.getD childIdx "")
    let p := strTrim (row.getD parentIdx "")
    if c = "" ∨ p = "" then st
    else
      match st.2.find? (fun q => q.1 = c) with
      | some q => if q.2 = p then st else (false, st.2)
      | none => (st.1, st.2 ++ [(c, p)])
  else st

/-- The functional-dependency scan over all sampled rows: consistency
flag and the number of mapped child values. -/
def fdCheck (rows : List (List String)) (childIdx parentIdx : Nat) : Bool × Nat :=
  let st := rows.foldl (fdStep childIdx parentIdx) (true, [])
  (st.1, st.2.length)

/-- The candidate test of the inner loop: consistent mapping and more
than one mapped child value. -/
def hierarchyPass (rows : List (List String)) (childIdx parentIdx : Nat) : Bool :=
  let r := fdCheck rows childIdx parentIdx
  r.1 && decide (r.2 > 1)

/-- One candidate step of the best-parent loop (`j` ranges over the
dimension positions; the best is replaced only by a strictly higher
unique count). -/
def bpStep (dimKeys : List String) (cols : List DimCol) (rows : List (List String))
    (i : Nat) (childCol : DimCol) (best : String × Nat) (j : Nat) : String × Nat :=
  if j = i then best
  else
    match lookupDimCol cols (dimKeys.getD j "") with
    | none => best
    | some pcol =>
      if pcol.uniqueCount ≥ childCol.uniqueCount then best
      else if hierarchyPass rows childCol.index pcol.index then
        if pcol.uniqueCount > best.2 then (dimKeys.getD j "", pcol.uniqueCount) else best
      else best

/-- The parent `detectHierarchies` assigns to the dimension at position
`i` (the Go code only writes `Parent` when the best key is non-empty, so
an empty final key is `none`). -/
def bestParentFor (dimKeys : List String) (cols : List DimCol)
    (rows : List (List String)) (i : Nat) : Option String :=
  match dimKeys[i]? with
  | none => none
  | some childKey =>
    match lookupDimCol cols childKey with
    | none => none
    | some childCol =>
      let st := (List.range dimKeys.length).foldl
        (bpStep dimKeys cols rows i childCol) ("", 0)
      if st.1 = "" then none else some st.1

/-- `detectHierarchies` — the parent assignment for every dimension. -/
def detectHierarchies (dimKeys : List String) (cols : List DimCol)
    (rows : List (List String)) : List (Option String) :=
  (List.range dimKeys.length).map (fun i => bestParentFor dimKeys cols rows i)

/-- The conditions under which the Go loop can select position `j` with
column `pcol` as a parent candidate for the child column `childCol`. -/
def selectableParent (dimKeys : List String) (cols : List DimCol)
    (rows : List (List String)) (i : Nat) (childCol : DimCol)
    (j : Nat) (pcol : DimCol) : Prop :=
  j < dimKeys.length ∧ j ≠ i ∧
  lookupDimCol cols (dimKeys.getD j "") = some pcol ∧
  pcol.uniqueCount < childCol.uniqueCount ∧
  hierarchyPass rows childCol.index pcol.index = true ∧
  1 ≤ pcol.uniqueCount

/-- The claim's candidate test, following the claim's words: the distinct
non-empty child values across all sampled rows. -/
def specChildValues (rows : List (List String)) (childIdx : Nat) : List String :=
  firstSeen (((rows.filter (fun row => childIdx < row.length)).map
    (fun row => strTrim (row.getD childIdx ""))).filter (fun v => v ≠ ""))

/-- The claim's candidate test, following the claim's words: the distinct
non-empty candidate-parent values co-occurring with one child value. -/
def specParentValuesOf (rows : List (List String)) (childIdx parentIdx : Nat)
    (v : String) : List String :=
  firstSeen (((rows.filter (fun row =>
      childIdx < row.length ∧ parentIdx < row.length ∧
      strTrim (row.getD childIdx "") = v)).map
    (fun row => strTrim (row.getD parentIdx ""))).filter (fun p => p ≠ ""))

/-- The claim's candidate-parent condition, following the claim's words:
strictly fewer distinct values than the child, and every child value maps
to exactly one candidate-parent value across all sampled rows. -/
def specValidParent (rows : List (List String)) (childIdx parentIdx : Nat)
    (childU parentU : Nat) : Bool :=
  decide (parentU < childU) &&
    (specChildValues rows childIdx).all
      (fun v => (specParentValuesOf rows childIdx parentIdx v).length = 1)

/-- Sampled rows in which every child value maps to one parent value. -/
def hierSampleRows : List (List String) :=
  [["a", "p"], ["b", "p"], ["c", "q"], ["d", "q"]]

/-- The dimension columns of the sample (child `field`, parent
`category`), with the unique counts `analyzeColumn` computes. -/
def hierSampleCols : List DimCol :=
  [⟨"field", 0, 4⟩, ⟨"category", 1, 2⟩]

/-- Sampled rows with an empty parent cell: the child value `c` appears
only next to an empty `category` cell. -/
def hierCexRows : List (List String) :=
  [["a", "p"], ["b", "q"], ["c", ""]]

/-- The dimension columns of the counterexample rows, with the unique
counts `analyzeColumn` computes over them. -/
def hierCexCols : List DimCol :=
  [⟨"field", 0, 3⟩, ⟨"category", 1, 2⟩]

/-! ## Schema types and Smart Refine (schema/schema.go, schema/refine.go) -/

/-- `CurrencyConfig` — multi-currency settings. -/
structure CurrencyConfig where
  enabled : Bool := false
  codeDimension : String := ""
  baseCurrency : String := ""
  rates : List (String × Rat) := []
deriving Repr, DecidableEq

/-- `DimensionMeta` — a described dimension (`SortHint` is the field
written by refinement). -/
structure DimensionMeta where
  key : String := ""
  displayName : String := ""
  description : String := ""
  sampleValues : List String := []
  groupable : Bool := false
  filterable : Bool := false
  parent : String := ""
  isTemporal : Bool := false
  temporalFormat : String := ""
  temporalOrder : String := ""
  isCurrencyCode : Bool := false
  cardinalityHint : String := ""
  derivedFrom : String := ""
  sortHint : String := ""
deriving Repr, DecidableEq

/-- `MeasureMeta` — a described measure. -/
structure MeasureMeta where
  key : String := ""
  displayName : String := ""
  description : String := ""
  unit : String := ""
  isCurrency : Bool := false
  isSynthetic : Bool := false
  aggregations : List String := []
  defaultAggregation : String := ""
  format : String := ""
deriving Repr, DecidableEq

/-- `SkippedColumn` — an excluded column with the reason. -/
structure SkippedColumn where
  column : String := ""
  reason : String := ""
  recoverable : Bool := false
deriving Repr, DecidableEq

/-- `Config` — the complete schema description (`RefinedAt`/`RefinedBy`
are the fields written by refinement). -/
structure Config where
  name : String := ""
  version : String := ""
  description : String := ""
  dimensions : List DimensionMeta := []
  measures : List MeasureMeta := []
  currency : Option CurrencyConfig := none
  discoveredFrom : String := ""
  discoveredAt : String := ""
  skippedColumns : List SkippedColumn := []
  refinedAt : String := ""
  refinedBy : String := ""
deriving Repr, DecidableEq

/-- `deepCopyConfig` — field-by-field copy with fresh nested slices and
maps (`.map id` models the fresh allocations; `RefinedAt`/`RefinedBy`
are not among the copied fields and take their zero value). -/
def deepCopyConfig (src : Config) : Config :=
  { name := src.name, version := src.version, description := src.description,
    discoveredFrom := src.discoveredFrom, discoveredAt := src.discoveredAt,
    dimensions := src.dimensions.map
      (fun d => { d with sampleValues := d.sampleValues.map id }),
    measures := src.measures.map
      (fun m => { m with aggregations := m.aggregations.map id }),
    skippedColumns := src.skippedColumns.map id,
    currency := src.currency.map (fun cc => { cc with rates := cc.rates.map id }) }

/-- One parsed column enrichment from the AI response. -/
structure ColumnEnrichment where
  key : String := ""
  displayName : String := ""
  description : String := ""
  unit : String := ""
  sortHint : String := ""
  defaultAggregation : String := ""
deriving Repr, DecidableEq

/-- One parsed hierarchy suggestion. -/
structure HierarchySuggestion where
  parent : String := ""
  child : String := ""
  reason : String := ""
deriving Repr, DecidableEq

/-- One parsed recover suggestion. -/
structure RecoverSuggestion where
  column : String := ""
  reason : String := ""
  suggestedRole : String := ""
deriving Repr, DecidableEq

/-- `refineEnrichment` — the parsed AI response. -/
structure RefineEnrichment where
  datasetName : String := ""
  datasetDescription : String := ""
  enrichments : List ColumnEnrichment := []
  suggestedHierarchies : List HierarchySuggestion := []
  recoverColumns : List RecoverSuggestion := []
deriving Repr, DecidableEq

/-- `isValidAggregation` — the aggregation whitelist. -/
def isValidAggregation (agg : String) : Bool :=
  agg = "sum" ∨ agg = "avg" ∨ agg = "count" ∨ agg = "max" ∨ agg = "min"

/-- The enrichment lookup by key (a later duplicate key wins, as in the
Go `enrichMap` build). -/
def enrichFor (es : List ColumnEnrichment) (k : String) : Option ColumnEnrichment :=
  es.reverse.find? (fun e => e.key = k)

/-- The per-dimension merge: non-empty display name, description and
sort hint overwrite. -/
def enrichDimension (es : List ColumnEnrichment) (d : DimensionMeta) : DimensionMeta :=
  match enrichFor es d.key with
  | none => d
  | some e =>
    let d1 := if e.displayName ≠ "" then { d with displayName := e.displayName } else d
    let d2 := if e.description ≠ "" then { d1 with description := e.description } else d1
    if e.sortHint ≠ "" then { d2 with sortHint := e.sortHint } else d2

/-- The per-measure merge: non-empty display name, description and unit
overwrite (a `"currency"` unit also sets the currency flag); the default
aggregation only when non-empty and whitelisted. -/
def enrichMeasure (es : List ColumnEnrichment) (m : MeasureMeta) : MeasureMeta :=
  match enrichFor es m.key with
  | none => m
  | some e =>
    let m1 := if e.displayName ≠ "" then { m with displayName := e.displayName } else m
    let m2 := if e.description ≠ "" then { m1 with description := e.description } else m1
    let ic := if e.unit = "currency" then true else m2.isCurrency
    let m3 := if e.unit ≠ "" then { m2 with unit := e.unit, isCurrency := ic } else m2
    if e.defaultAggregation ≠ "" ∧ isValidAggregation e.defaultAggregation then
      { m3 with defaultAggregation := e.defaultAggregation }
    else m3

/-- One hierarchy suggestion: applied only to dimensions that do not
already have a parent. -/
def applyHierarchySuggestion (dims : List DimensionMeta) (h : HierarchySuggestion) :
    List DimensionMeta :=
  dims.map (fun d =>
    if d.key = h.child ∧ d.parent = "" then { d with parent := h.parent } else d)

/-- `applyEnrichments` — merge the AI suggestions into a deep copy of
the draft (`now` models the `time.Now()` refinement timestamp). -/
def applyEnrichments (draft : Config) (enrichment : RefineEnrichment) (now : String) :
    Config :=
  let r0 := deepCopyConfig draft
  let r1 := if enrichment.datasetName ≠ "" then { r0 with name := enrichment.datasetName }
    else r0
  let r2 :=
    if enrichment.datasetDescription ≠ "" then
      { r1 with description := enrichment.datasetDescription }
    else r1
  let dims3 := r2.dimensions.map (enrichDimension enrichment.enrichments)
  let r3 := { r2 with dimensions := dims3 }
  let mes4 := r3.measures.map (enrichMeasure enrichment.enrichments)
  let r4 := { r3 with measures := mes4 }
  let dims5 := enrichment.suggestedHierarchies.foldl applyHierarchySuggestion r4.dimensions
  let r5 := { r4 with dimensions := dims5 }
  { r5 with refinedAt := now, refinedBy := "gemini" }

/-- The outcome of the external call and response parse (the network
round-trip and the JSON decode are the two fallible steps of `Refine`). -/
inductive RefineOutcome where
  | callFailed
  | parseFailed
  | parsed (e : RefineEnrichment)
deriving Repr, DecidableEq

/-- `Refine` — the refinement entry point; the Boolean is the Go error
(`nil`/non-`nil`).  A nil draft or empty API key returns no config; a
call or parse failure returns the original draft with an error; success
returns the enriched copy. -/
def Refine (draft : Option Config) (apiKey : String) (outcome : RefineOutcome)
    (now : String) : Option Config × Bool :=
  match draft with
  | none => (none, true)
  | some draft =>
    if apiKey = "" then (none, true)
    else
      match outcome with
      | .callFailed => (some draft, true)
      | .parseFailed => (some draft, true)
      | .parsed e => (some (applyEnrichments draft e now), false)

/-- A concrete draft schema. -/
def sampleDraft : Config :=
  let d : DimensionMeta := { key := "status", displayName := "Status", sampleValues := ["To Do", "Done"], groupable := true, filterable := true }
  let m : MeasureMeta := { key := "story_points", displayName := "Story Points", aggregations := ["sum", "avg"], defaultAggregation := "sum" }
  let cc : CurrencyConfig := { enabled := true, codeDimension := "currency", baseCurrency := "SGD", rates := [("INR", 62)] }
  let sk : SkippedColumn := { column := "Summary", reason := "unique", recoverable := true }
  { name := "Auto-discovered Dataset", version := "1.0", dimensions := [d],
    measures := [m], currency := some cc, skippedColumns := [sk] }

/-! ## Lemmas and claim theorems -/

lemma seenFold_mem : ∀ (l acc : List String) (a : String),
    a ∈ l.foldl (fun acc a => if a ∈ acc then acc else acc ++ [a]) acc →
    a ∈ acc ∨ a ∈ l := by
  intro l
  induction l with
  | nil => intro acc a h'; exact Or.inl h'
  | cons b t ih =>
    intro acc a h'
    simp only [List.foldl_cons] at h'
    rcases ih _ a h' with h'' | h''
    · by_cases hb : b ∈ acc
      · simp only [hb, if_pos] at h''
        exact Or.inl h''
      · simp only [hb, if_neg, not_false_iff, List.mem_append, List.mem_singleton] at h''
        rcases h'' with h3 | h3
        · exact Or.inl h3
        · exact Or.inr (by simp [h3])
    · exact Or.inr (List.mem_cons_of_mem _ h'')

lemma mem_seenFold : ∀ (l acc : List String) (a : String),
    a ∈ acc ∨ a ∈ l →
    a ∈ l.foldl (fun acc a => if a ∈ acc then acc else acc ++ [a]) acc := by
  intro l
  induction l with
  | nil =>
    intro acc a h
    simpa using h.resolve_right (List.not_mem_nil a)
  | cons b t ih =>
    intro acc a h
    simp only [List.foldl_cons]
    apply ih
    by_cases hb : b ∈ acc
    · simp only [hb, if_pos]
      rcases h with h | h
      · exact Or.inl h
      · rcases List.mem_cons.1 h with rfl | h'
        · exact Or.inl hb
        · exact Or.inr h'
    · simp only [hb, if_neg, not_false_iff]
      rcases h with h | h
      · exact Or.inl (List.mem_append_left _ h)
      · rcases List.mem_cons.1 h with rfl | h'
        · exact Or.inl (by simp)
        · exact Or.inr h'

lemma mem_firstSeen {a : String} {l : List String} (h : a ∈ firstSeen l) : a ∈ l := by
  rcases seenFold_mem l [] a h with h' | h'
  · exact absurd h' (List.not_mem_nil a)
  · exact h'

lemma firstSeen_mem {a : String} {l : List String} (h : a ∈ l) : a ∈ firstSeen l :=
  mem_seenFold l [] a (Or.inr h)

/-- A record of a filtered sub-view at a valid index reads through to a
parent index that passed `filterPass`. -/
lemma applyFilters_dim_eq (view : RecordView) (f : Filters)
    (sets : List (String × List String))
    (hne : ¬ sets.isEmpty = true)
    (hsets : sets = (f.dimensions.filter (fun p => ¬ p.2.isEmpty)).map
      (fun p => (p.1, toLowerSet p.2)))
    (hE : ¬ f.IsEmpty = true) (j : Nat)
    (hj : j < (ApplyFilters view f).len) :
    ∃ i, i ∈ (List.range view.len).filter (filterPass view sets) ∧
      ∀ d, (ApplyFilters view f).dimension j d = view.dimension i d := by
  have happ : ApplyFilters view f =
      .sub view ((List.range view.len).filter (filterPass view sets)) := by
    rw [ApplyFilters, if_neg hE, ← hsets, if_neg hne]
  set indices := (List.range view.len).filter (filterPass view sets) with hind
  have hjlen : j < indices.length := by
    have : (ApplyFilters view f).len = indices.length := by
      rw [happ]; rfl
    omega
  refine ⟨indices[j], List.getElem_mem hjlen, fun d => ?_⟩
  rw [happ]
  show (match indices[j]? with
      | some pi => view.dimension pi d
      | none => "") = view.dimension indices[j] d
  rw [List.getElem?_eq_getElem hjlen]

/-- C1: for every view and filter set, the filtered view is no longer than
the original, and every retained record's lowercased value lies in the
lowercased allow-list of every constrained dimension (AND across
dimensions, OR within a dimension, case-insensitive). -/
theorem C1_applyFilters_sound (view : RecordView) (f : Filters) :
    (ApplyFilters view f).len ≤ view.len ∧
    ∀ j, j < (ApplyFilters view f).len →
      ∀ d vals, (d, vals) ∈ f.dimensions → vals ≠ [] →
        strLower ((ApplyFilters view f).dimension j d) ∈ vals.map strLower := by
  by_cases hE : f.IsEmpty = true
  · have happ : ApplyFilters view f = view := by rw [ApplyFilters, if_pos hE]
    refine ⟨le_of_eq (by rw [happ]), fun j hj d vals hmem hne => ?_⟩
    exfalso
    have := (List.all_eq_true.1 hE) _ hmem
    exact hne (List.isEmpty_iff.1 (by simpa using this))
  · set sets := (f.dimensions.filter (fun p => ¬ p.2.isEmpty)).map
      (fun p => (p.1, toLowerSet p.2)) with hsets
    by_cases hS : sets.isEmpty = true
    · have happ : ApplyFilters view f = view := by
        rw [ApplyFilters, if_neg hE, ← hsets, if_pos hS]
      refine ⟨le_of_eq (by rw [happ]), fun j hj d vals hmem hne => ?_⟩
      exfalso
      have hfil : (d, vals) ∈ f.dimensions.filter (fun p => ¬ p.2.isEmpty) := by
        refine List.mem_filter.2 ⟨hmem, ?_⟩
        simpa using fun h => hne (List.isEmpty_iff.1 h)
      have : (d, toLowerSet vals) ∈ sets := by
        rw [hsets]
        exact List.mem_map.2 ⟨(d, vals), hfil, rfl⟩
      rw [List.isEmpty_iff.1 hS] at this
      exact absurd this (List.not_mem_nil _)
    · constructor
      · have happ : ApplyFilters view f =
            .sub view ((List.range view.len).filter (filterPass view sets)) := by
          rw [ApplyFilters, if_neg hE, ← hsets, if_neg hS]
        rw [happ]
        calc ((List.range view.len).filter (filterPass view sets)).length
            ≤ (List.range view.len).length := List.length_filter_le _ _
          _ = view.len := List.length_range _
      · intro j hj d vals hmem hne
        obtain ⟨i, hi, hdim⟩ := applyFilters_dim_eq view f sets hS hsets hE j hj
        rw [hdim d]
        have hpass : filterPass view sets i = true := (List.mem_filter.1 hi).2
        have hmem2 : (d, toLowerSet vals) ∈ sets := by
          rw [hsets]
          refine List.mem_map.2 ⟨(d, vals), List.mem_filter.2 ⟨hmem, ?_⟩, rfl⟩
          simpa using fun h => hne (List.isEmpty_iff.1 h)
        have := (List.all_eq_true.1 hpass) _ hmem2
        simpa [toLowerSet] using this

/-- Witness for C1 at a concrete view and filter set: the filter keeps the
matching record and its value is in the (lowercased) allow-list. -/
theorem C1_applyFilters_sound_witness :
    (("category", ["Food"]) ∈
        (Filters.mk [("category", ["Food"])]).dimensions ∧ (["Food"] : List String) ≠ [] ∧
      0 < (ApplyFilters
        (.slice [{ dimensions := [("category", "food")], measures := [("amount", 3)] },
                 { dimensions := [("category", "Rent")], measures := [("amount", 5)] }])
        (Filters.mk [("category", ["Food"])])).len) ∧
    (strLower ((ApplyFilters
        (.slice [{ dimensions := [("category", "food")], measures := [("amount", 3)] },
                 { dimensions := [("category", "Rent")], measures := [("amount", 5)] }])
        (Filters.mk [("category", ["Food"])])).dimension 0 "category")) ∈
      (["Food"] : List String).map strLower := by
  refine ⟨⟨by decide, by decide, by decide⟩, ?_⟩
  exact (C1_applyFilters_sound
    (.slice [{ dimensions := [("category", "food")], measures := [("amount", 3)] },
             { dimensions := [("category", "Rent")], measures := [("amount", 5)] }])
    (Filters.mk [("category", ["Food"])])).2 0 (by decide) "category" ["Food"]
    (by decide) (by decide)

lemma aggregateGroup_count (g : Group) (m a : String) :
    (aggregateGroup g m a).count = g.view.len := by
  unfold aggregateGroup
  by_cases h : g.view.len = 0
  · simp [h, Group.count]
  · simp [h, Group.count]

lemma aggregateAll_count (g : Group) (m a : String) :
    (aggregateAll g m a).count = g.view.len := by
  unfold aggregateAll
  exact aggregateGroup_count g m a

/-- C5 (amended): for every non-empty view, grouping with zero group-by
keys yields exactly one group whose count equals the view's length. -/
theorem C5_zero_groupBy_single_group (view : RecordView)
    (measure aggregation sortBy : String) (limit : Int)
    (hne : view.len ≠ 0) :
    ∃ g, GroupAndAggregate view [] measure aggregation sortBy limit = [g] ∧
      g.count = view.len := by
  rw [GroupAndAggregate, if_neg hne]
  set g0 := aggregateAll (Group.mk "all" "Total" 0 0 [] view) measure aggregation with hg0
  have hcount : g0.count = view.len := by
    rw [hg0]
    exact aggregateAll_count (Group.mk "all" "Total" 0 0 [] view) measure aggregation
  have hsort : SortGroups [g0] sortBy = [g0] := by
    unfold SortGroups
    split <;> first | rfl | (split <;> first | rfl | (split <;> first | rfl |
      (split <;> first | rfl | (split <;> first | rfl | (split <;> rfl)))))
  refine ⟨g0, ?_, hcount⟩
  simp only [List.map_cons, List.map_nil, ← hg0, hsort]
  have hlen : (([g0] : List Group).length : Int) = 1 := by simp
  by_cases hlim : limit > 0 ∧ (([g0] : List Group).length : Int) > limit
  · exfalso
    rw [hlen] at hlim
    omega
  · rw [if_neg hlim]

/-- Witness for C5 at a concrete one-record view. -/
theorem C5_zero_groupBy_single_group_witness :
    (RecordView.slice [{ measures := [("amount", 7)] }]).len ≠ 0 ∧
    ∃ g, GroupAndAggregate (RecordView.slice [{ measures := [("amount", 7)] }])
        [] "amount" "sum" "" 0 = [g] ∧
      g.count = (RecordView.slice [{ measures := [("amount", 7)] }]).len :=
  ⟨by decide,
    C5_zero_groupBy_single_group (RecordView.slice [{ measures := [("amount", 7)] }])
      "amount" "sum" "" 0 (by decide)⟩

/-- Counterexample to C5 as stated: on the empty view, grouping with zero
group-by keys yields zero groups, not one. -/
theorem C5_counterexample_empty_view :
    GroupAndAggregate (RecordView.slice []) [] "amount" "sum" "" 0 = [] := rfl

lemma headD_mem (d : GrowthEntry) {l : List GrowthEntry} (h : l ≠ []) : l.headD d ∈ l := by
  cases l with
  | nil => exact absurd rfl h
  | cons a t => simp

lemma lastD_mem (d : GrowthEntry) : ∀ {l : List GrowthEntry}, l ≠ [] → lastD l d ∈ l := by
  intro l
  induction l with
  | nil => intro h; exact absurd rfl h
  | cons a t ih =>
    intro _
    cases t with
    | nil => simp [lastD]
    | cons b t2 =>
      rw [lastD]
      exact List.mem_cons_of_mem a (ih (by simp))

lemma sorted_headD_min (d : GrowthEntry) {l : List GrowthEntry}
    (hs : List.Sorted geLe l) : ∀ x ∈ l, geLe (l.headD d) x := by
  intro x hx
  cases l with
  | nil => cases hx
  | cons a t =>
    rw [List.headD_cons]
    rcases List.mem_cons.1 hx with rfl | hx'
    · exact le_refl x.order
    · exact List.rel_of_sorted_cons hs x hx'

lemma sorted_lastD_max (d : GrowthEntry) : ∀ {l : List GrowthEntry},
    List.Sorted geLe l → ∀ x ∈ l, geLe x (lastD l d) := by
  intro l
  induction l with
  | nil => intro _ x hx; cases hx
  | cons a t ih =>
    intro hs x hx
    cases t with
    | nil =>
      rcases List.mem_cons.1 hx with rfl | hx'
      · exact le_refl x.order
      · cases hx'
    | cons b t2 =>
      rw [lastD]
      rcases List.mem_cons.1 hx with rfl | hx'
      · exact List.rel_of_sorted_cons hs _ (lastD_mem d (by simp))
      · exact ih hs.of_cons x hx'

/-- C2 (amended to non-empty views): `BuildGrowthText` groups the view by
the `month` dimension summing the measure; with fewer than two distinct
non-empty months it returns the view's total with direction
`"insufficient data"` and change percent 0; otherwise it takes the
chronologically earliest and latest month totals, sets
change = latest − earliest, change percent = change / earliest × 100
(0 when the earliest total is 0), and classifies the direction with a
±0.5 deadband. -/
theorem C2_buildGrowthText (view : RecordView) (measure unit : String)
    (hne : view.len ≠ 0) :
    ((distinctMonths view).length < 2 →
      (BuildGrowthText view measure unit).rawValue = SumMeasure view measure ∧
      ∃ g, (BuildGrowthText view measure unit).growth = some g ∧
        g.direction = "insufficient data" ∧ g.changePercent = 0 ∧
        g.earliestValue = SumMeasure view measure ∧
        g.latestValue = SumMeasure view measure) ∧
    (¬ (distinctMonths view).length < 2 →
      ∃ g, (BuildGrowthText view measure unit).growth = some g ∧
        g.earliestPeriod ∈ distinctMonths view ∧
        g.latestPeriod ∈ distinctMonths view ∧
        (∀ m ∈ distinctMonths view,
          ParseMonthOrder g.earliestPeriod ≤ ParseMonthOrder m) ∧
        (∀ m ∈ distinctMonths view,
          ParseMonthOrder m ≤ ParseMonthOrder g.latestPeriod) ∧
        g.earliestValue = monthTotal view measure g.earliestPeriod ∧
        g.latestValue = monthTotal view measure g.latestPeriod ∧
        g.changeAmount = g.latestValue - g.earliestValue ∧
        g.changePercent =
          (if g.earliestValue ≠ 0 then g.changeAmount / g.earliestValue * 100 else 0) ∧
        g.direction =
          (if g.changePercent > 1 / 2 then "increased"
            else if g.changePercent < -(1 / 2) then "decreased" else "unchanged")) := by
  constructor
  · intro hlt
    have hB : BuildGrowthText view measure unit = growthInsufficient view measure unit := by
      rw [BuildGrowthText, if_neg hne, if_pos hlt]
    rw [hB]
    exact ⟨rfl, ⟨_, rfl, rfl, rfl, rfl, rfl⟩⟩
  · intro hge
    have hB : BuildGrowthText view measure unit = growthCompute view measure unit := by
      rw [BuildGrowthText, if_neg hne, if_neg hge]
    rw [hB]
    have hsorted : List.Sorted geLe (growthSorted view measure) :=
      List.sorted_insertionSort geLe (growthEntries view measure)
    have hlnnil : growthSorted view measure ≠ [] := by
      intro hnil
      have h1 : (growthSorted view measure).length = 0 := by rw [hnil]; rfl
      rw [growthSorted, List.length_insertionSort, growthEntries,
        List.length_map] at h1
      omega
    have hmemE : growthEarliest view measure ∈ growthSorted view measure :=
      headD_mem _ hlnnil
    have hmemL : growthLatest view measure ∈ growthSorted view measure :=
      lastD_mem _ hlnnil
    have hshape : ∀ e ∈ growthSorted view measure,
        e.month ∈ distinctMonths view ∧ e.order = ParseMonthOrder e.month ∧
        e.total = monthTotal view measure e.month := by
      intro e he
      rw [growthSorted, List.mem_insertionSort, growthEntries] at he
      rcases List.mem_map.1 he with ⟨m, hm, rfl⟩
      exact ⟨hm, rfl, rfl⟩
    have hmemS : ∀ m ∈ distinctMonths view,
        (⟨m, ParseMonthOrder m, monthTotal view measure m⟩ : GrowthEntry) ∈
          growthSorted view measure := by
      intro m hm
      rw [growthSorted, List.mem_insertionSort, growthEntries]
      exact List.mem_map.2 ⟨m, hm, rfl⟩
    obtain ⟨hEmonth, hEorder, hEtotal⟩ := hshape _ hmemE
    obtain ⟨hLmonth, hLorder, hLtotal⟩ := hshape _ hmemL
    refine ⟨_, rfl, hEmonth, hLmonth, ?_, ?_, hEtotal, hLtotal, rfl, rfl, rfl⟩
    · intro m hm
      have := sorted_headD_min ⟨"", 0, 0⟩ hsorted _ (hmemS m hm)
      rw [geLe] at this
      rw [← hEorder]
      exact this
    · intro m hm
      have := sorted_lastD_max ⟨"", 0, 0⟩ hsorted _ (hmemS m hm)
      rw [geLe] at this
      rw [← hLorder]
      exact this

/-- Witness for C2 at the two-month sample view. -/
theorem C2_buildGrowthText_witness :
    growthSampleView.len ≠ 0 ∧
    (¬ (distinctMonths growthSampleView).length < 2 →
      ∃ g, (BuildGrowthText growthSampleView "amount" "SGD").growth = some g ∧
        g.earliestPeriod ∈ distinctMonths growthSampleView ∧
        g.latestPeriod ∈ distinctMonths growthSampleView ∧
        (∀ m ∈ distinctMonths growthSampleView,
          ParseMonthOrder g.earliestPeriod ≤ ParseMonthOrder m) ∧
        (∀ m ∈ distinctMonths growthSampleView,
          ParseMonthOrder m ≤ ParseMonthOrder g.latestPeriod) ∧
        g.earliestValue = monthTotal growthSampleView "amount" g.earliestPeriod ∧
        g.latestValue = monthTotal growthSampleView "amount" g.latestPeriod ∧
        g.changeAmount = g.latestValue - g.earliestValue ∧
        g.changePercent =
          (if g.earliestValue ≠ 0 then g.changeAmount / g.earliestValue * 100 else 0) ∧
        g.direction =
          (if g.changePercent > 1 / 2 then "increased"
            else if g.changePercent < -(1 / 2) then "decreased" else "unchanged")) :=
  ⟨by decide, (C2_buildGrowthText growthSampleView "amount" "SGD" (by decide)).2⟩

/-- Counterexample to C2 as stated ("for every view"): on the empty view
there are fewer than two distinct months, yet `BuildGrowthText` returns no
growth object at all (no "insufficient data" direction, and the value is
the string `"No data"`, not a formatted total). -/
theorem C2_counterexample_empty_view :
    (distinctMonths (RecordView.slice [])).length < 2 ∧
    (BuildGrowthText (RecordView.slice []) "amount" "").growth = none ∧
    (BuildGrowthText (RecordView.slice []) "amount" "").value = "No data" := by
  exact ⟨by decide, rfl, rfl⟩

/-- C6 (amended): `Execute` never returns an error.  An empty view yields
a successful text result with the no-data message; a non-ratio query
whose filters match nothing yields a successful text result with the
no-matches message; a ratio query returns a successful text result in
every case (even when its filters match nothing), without a no-matches
message. -/
theorem C6_soft_success (spec : QuerySpec) (view : RecordView) (cfg : EngineConfig) :
    (view.len = 0 →
      Execute spec view cfg =
        ({ success := true, type := "text",
           reply := "No data available to analyze." }, none)) ∧
    (view.len ≠ 0 → ¬ (spec.aggregation = "ratio" ∧ spec.compareFilters.isSome) →
      (ApplyFilters view spec.filters).len = 0 →
      Execute spec view cfg =
        ({ success := true, type := "text",
           reply := "No records match your query filters. Try broadening your search." },
         none)) ∧
    (view.len ≠ 0 → spec.aggregation = "ratio" → spec.compareFilters.isSome →
      (Execute spec view cfg).1.success = true ∧ (Execute spec view cfg).1.type = "text" ∧
      (Execute spec view cfg).2 = none) := by
  refine ⟨fun h0 => ?_, fun h1 h2 h3 => ?_, fun h1 h2 h3 => ?_⟩
  · simp only [Execute]
    rw [if_pos h0]
  · simp only [Execute]
    rw [if_neg h1, if_neg h2, if_pos h3]
  · simp only [Execute]
    rw [if_neg h1, if_pos ⟨h2, h3⟩]
    exact ⟨rfl, rfl, rfl⟩

/-- Witness for C6: concrete empty view and no-match non-ratio query. -/
theorem C6_soft_success_witness :
    (Execute { aggregation := "sum" } (RecordView.slice []) {} =
      ({ success := true, type := "text",
         reply := "No data available to analyze." }, none)) ∧
    ((RecordView.slice [{ dimensions := [("category", "y")] }]).len ≠ 0 ∧
      (ApplyFilters (RecordView.slice [{ dimensions := [("category", "y")] }])
        (Filters.mk [("category", ["x"])])).len = 0 ∧
      Execute { aggregation := "sum", filters := ⟨[("category", ["x"])]⟩ }
          (RecordView.slice [{ dimensions := [("category", "y")] }]) {} =
        ({ success := true, type := "text",
           reply := "No records match your query filters. Try broadening your search." },
         none)) :=
  ⟨(C6_soft_success { aggregation := "sum" } (RecordView.slice []) {}).1 (by decide),
   ⟨by decide, by decide,
    (C6_soft_success { aggregation := "sum", filters := ⟨[("category", ["x"])]⟩ }
        (RecordView.slice [{ dimensions := [("category", "y")] }]) {}).2.1
      (by decide) (by decide) (by decide)⟩⟩

/-- Counterexample to C6 as stated: a ratio query whose filter set matches
no records still goes down the ratio path, and its reply is the resolved
template (here the empty string), not a no-data / no-matches message. -/
theorem C6_counterexample_ratio_no_message :
    (ApplyFilters ratioNoMatchView ratioNoMatchSpec.filters).len = 0 ∧
    (Execute ratioNoMatchSpec ratioNoMatchView {}).1.success = true ∧
    (Execute ratioNoMatchSpec ratioNoMatchView {}).1.reply = "" ∧
    (Execute ratioNoMatchSpec ratioNoMatchView {}).1.reply ≠
      "No data available to analyze." ∧
    (Execute ratioNoMatchSpec ratioNoMatchView {}).1.reply ≠
      "No records match your query filters. Try broadening your search." := by
  refine ⟨by decide, by decide, by decide, by decide, by decide⟩

/-- C3 (amended): for a ratio query on a non-empty view, `Execute`
filters the view independently by the primary filters (denominator) and
the compare filters (numerator), sums the measure in each, and reports
percentage = numerator/denominator × 100 when the denominator sum is
positive and 0 otherwise (so 0 also for a zero or negative denominator
sum); the sets need not be disjoint, and the percentage can exceed 100
(witnessed by the closed overlap instance in the last conjunct). -/
theorem C3_ratio_percentage (spec : QuerySpec) (view : RecordView) (cfg : EngineConfig)
    (cf : Filters) (hagg : spec.aggregation = "ratio")
    (hcf : spec.compareFilters = some cf) (hne : view.len ≠ 0) :
    (∃ td rd, (Execute spec view cfg).1.data = some td ∧ td.ratio = some rd ∧
      (Execute spec view cfg).1.success = true ∧
      rd.numeratorTotal = SumMeasure (ApplyFilters view cf) (resolveMeasure spec cfg) ∧
      rd.denominatorTotal =
        SumMeasure (ApplyFilters view spec.filters) (resolveMeasure spec cfg) ∧
      rd.percentage =
        (if SumMeasure (ApplyFilters view spec.filters) (resolveMeasure spec cfg) > 0 then
          SumMeasure (ApplyFilters view cf) (resolveMeasure spec cfg) /
            SumMeasure (ApplyFilters view spec.filters) (resolveMeasure spec cfg) * 100
         else 0)) ∧
    (∃ td rd, (Execute ratioOverlapSpec ratioOverlapView {}).1.data = some td ∧
      td.ratio = some rd ∧ rd.percentage = 300 ∧ rd.percentage > 100) := by
  constructor
  · have hEx : Execute spec view cfg =
        (executeRatio spec view (resolveMeasure spec cfg) cfg, none) := by
      simp only [Execute]
      rw [if_neg hne, if_pos ⟨hagg, by rw [hcf]; rfl⟩]
    have hget : spec.compareFilters.getD {} = cf := by rw [hcf]; rfl
    rw [hEx, ← hget]
    exact ⟨_, _, rfl, rfl, rfl, rfl, rfl, rfl⟩
  · exact ⟨_, _, rfl, rfl, by with_unfolding_all decide, by with_unfolding_all decide⟩

/-- Witness for C3 at the overlap instance (also discharging the
hypotheses concretely). -/
theorem C3_ratio_percentage_witness :
    ratioOverlapSpec.aggregation = "ratio" ∧
    ratioOverlapSpec.compareFilters = some ⟨[]⟩ ∧
    ratioOverlapView.len ≠ 0 ∧
    (∃ td rd, (Execute ratioOverlapSpec ratioOverlapView {}).1.data = some td ∧
      td.ratio = some rd ∧
      (Execute ratioOverlapSpec ratioOverlapView {}).1.success = true ∧
      rd.numeratorTotal =
        SumMeasure (ApplyFilters ratioOverlapView ⟨[]⟩)
          (resolveMeasure ratioOverlapSpec {}) ∧
      rd.denominatorTotal =
        SumMeasure (ApplyFilters ratioOverlapView ratioOverlapSpec.filters)
          (resolveMeasure ratioOverlapSpec {}) ∧
      rd.percentage =
        (if SumMeasure (ApplyFilters ratioOverlapView ratioOverlapSpec.filters)
            (resolveMeasure ratioOverlapSpec {}) > 0 then
          SumMeasure (ApplyFilters ratioOverlapView ⟨[]⟩)
              (resolveMeasure ratioOverlapSpec {}) /
            SumMeasure (ApplyFilters ratioOverlapView ratioOverlapSpec.filters)
              (resolveMeasure ratioOverlapSpec {}) * 100
         else 0)) :=
  ⟨rfl, rfl, by decide,
    (C3_ratio_percentage ratioOverlapSpec ratioOverlapView {} ⟨[]⟩ rfl rfl (by decide)).1⟩

/-- Counterexample to C3 as stated: with a negative denominator sum
(−100) and numerator sum 50, the claim's formula demands −50, but the
code reports 0 (it zeroes the percentage for every non-positive
denominator, not only for zero). -/
theorem C3_counterexample_negative_denominator :
    ∃ td rd, (Execute ratioNegSpec ratioNegView {}).1.data = some td ∧
      td.ratio = some rd ∧
      rd.denominatorTotal = -100 ∧ rd.numeratorTotal = 50 ∧
      rd.percentage = 0 ∧
      rd.numeratorTotal / rd.denominatorTotal * 100 = -50 ∧
      rd.percentage ≠ rd.numeratorTotal / rd.denominatorTotal * 100 := by
  refine ⟨_, _, rfl, rfl, ?_, ?_, ?_, ?_, ?_⟩ <;> with_unfolding_all decide

/-- On the main (non-ratio, non-empty) path, the result's display unit
and conversion flag are exactly what the currency step produced. -/
lemma Execute_currency_projections (spec : QuerySpec) (view : RecordView)
    (cfg : EngineConfig) (hne : view.len ≠ 0)
    (hnr : ¬ (spec.aggregation = "ratio" ∧ spec.compareFilters.isSome))
    (hfne : (ApplyFilters view spec.filters).len ≠ 0) :
    (Execute spec view cfg).1.displayUnit =
      (currencyStep (ApplyFilters view spec.filters) cfg (resolveMeasure spec cfg)).2.1 ∧
    (Execute spec view cfg).1.shouldConvert =
      (currencyStep (ApplyFilters view spec.filters) cfg (resolveMeasure spec cfg)).2.2 := by
  simp only [Execute]
  rw [if_neg hne, if_neg hnr, if_neg hfne]
  split_ifs <;> first | exact ⟨rfl, rfl⟩ | (split <;> exact ⟨rfl, rfl⟩)

/-- C4 (amended): when the full currency configuration is present
(non-empty base currency, currency dimension, and rate table) and the
non-empty filtered view carries exactly one distinct non-empty currency
code, `Execute` uses that code as the display unit and applies no
currency-normalizing view (`ShouldConvert` is false and the currency step
returns the filtered view unchanged, so no measure value is altered).
Note the claim's "regardless of whether a rate table is configured" does
not hold: with a base currency configured and no rates, the display unit
is the base currency (see the counterexample). -/
theorem C4_currency_passthrough (spec : QuerySpec) (view : RecordView)
    (cfg : EngineConfig) (c : String)
    (hne : view.len ≠ 0)
    (hnr : ¬ (spec.aggregation = "ratio" ∧ spec.compareFilters.isSome))
    (hfne : (ApplyFilters view spec.filters).len ≠ 0)
    (hbase : cfg.baseCurrency ≠ "") (hdim : cfg.currencyDimension ≠ "")
    (hrates : ¬ cfg.exchangeRates.isEmpty)
    (hcodes : currencyCodes (ApplyFilters view spec.filters) cfg.currencyDimension = [c]) :
    (Execute spec view cfg).1.displayUnit = c ∧
    (Execute spec view cfg).1.shouldConvert = false ∧
    currencyStep (ApplyFilters view spec.filters) cfg (resolveMeasure spec cfg) =
      (ApplyFilters view spec.filters, c, false) := by
  have hcmem : c ∈ currencyCodes (ApplyFilters view spec.filters) cfg.currencyDimension := by
    rw [hcodes]
    exact List.mem_singleton_self c
  have hcne : c ≠ "" := by
    have h2 := mem_firstSeen hcmem
    have := (List.mem_filter.1 h2).2
    simpa using this
  have hdet : detectDisplayCurrency (ApplyFilters view spec.filters)
      cfg.currencyDimension cfg.baseCurrency = (c, false) := by
    rw [detectDisplayCurrency, if_neg hfne, hcodes]
  have hcs : currencyStep (ApplyFilters view spec.filters) cfg (resolveMeasure spec cfg) =
      (ApplyFilters view spec.filters, c, false) := by
    simp only [currencyStep, hdet, if_pos (show cfg.baseCurrency ≠ "" ∧
      cfg.currencyDimension ≠ "" ∧ ¬ cfg.exchangeRates.isEmpty from ⟨hbase, hdim, hrates⟩)]
    simp [hcne]
  obtain ⟨hdu, hsc⟩ := Execute_currency_projections spec view cfg hne hnr hfne
  rw [hdu, hsc, hcs]
  exact ⟨rfl, rfl, rfl⟩

/-- Witness for C4 at a concrete single-currency view with a full
currency configuration. -/
theorem C4_currency_passthrough_witness :
    (singleCurrencyView.len ≠ 0 ∧
      (ApplyFilters singleCurrencyView sumSpec.filters).len ≠ 0 ∧
      currencyCodes (ApplyFilters singleCurrencyView sumSpec.filters)
        eurFullCfg.currencyDimension = ["USD"]) ∧
    ((Execute sumSpec singleCurrencyView eurFullCfg).1.displayUnit = "USD" ∧
      (Execute sumSpec singleCurrencyView eurFullCfg).1.shouldConvert = false ∧
      currencyStep (ApplyFilters singleCurrencyView sumSpec.filters) eurFullCfg
          (resolveMeasure sumSpec eurFullCfg) =
        (ApplyFilters singleCurrencyView sumSpec.filters, "USD", false)) :=
  ⟨⟨by decide, by decide, by decide⟩,
    C4_currency_passthrough sumSpec singleCurrencyView eurFullCfg "USD"
      (by decide) (by decide) (by decide) (by decide) (by decide) (by decide) (by decide)⟩

/-- Counterexample to C4 as stated: all records share the single code
`"USD"`, but with a base currency configured and no rate table the
display unit is the configured base `"EUR"`, not the shared code — so
"regardless of whether a rate table is configured" fails. -/
theorem C4_counterexample_no_rate_table :
    currencyCodes (ApplyFilters singleCurrencyView sumSpec.filters)
      eurNoRatesCfg.currencyDimension = ["USD"] ∧
    (Execute sumSpec singleCurrencyView eurNoRatesCfg).1.displayUnit = "EUR" ∧
    (Execute sumSpec singleCurrencyView eurNoRatesCfg).1.displayUnit ≠ "USD" := by
  refine ⟨by decide, ?_, ?_⟩ <;> with_unfolding_all decide

/-- C10: with a fully configured currency setup and a non-empty filtered
view in which every record's currency dimension is empty, `Execute`
treats the data as multi-currency: the currency step wraps the view in
the currency-normalizing view, the display unit is the base currency,
and `ShouldConvert` is true. -/
theorem C10_no_codes_treated_multicurrency (spec : QuerySpec) (view : RecordView)
    (cfg : EngineConfig)
    (hne : view.len ≠ 0)
    (hnr : ¬ (spec.aggregation = "ratio" ∧ spec.compareFilters.isSome))
    (hfne : (ApplyFilters view spec.filters).len ≠ 0)
    (hbase : cfg.baseCurrency ≠ "") (hdim : cfg.currencyDimension ≠ "")
    (hrates : ¬ cfg.exchangeRates.isEmpty)
    (hall : ∀ i, i < (ApplyFilters view spec.filters).len →
      (ApplyFilters view spec.filters).dimension i cfg.currencyDimension = "") :
    (Execute spec view cfg).1.shouldConvert = true ∧
    (Execute spec view cfg).1.displayUnit = cfg.baseCurrency ∧
    currencyStep (ApplyFilters view spec.filters) cfg (resolveMeasure spec cfg) =
      (RecordView.currency (ApplyFilters view spec.filters) (resolveMeasure spec cfg)
        cfg.currencyDimension cfg.baseCurrency cfg.exchangeRates,
       cfg.baseCurrency, true) := by
  have hcodes : currencyCodes (ApplyFilters view spec.filters) cfg.currencyDimension = [] := by
    rw [currencyCodes]
    have hfil : (((List.range (ApplyFilters view spec.filters).len).map
        (fun i => (ApplyFilters view spec.filters).dimension i cfg.currencyDimension)).filter
        (fun c => c ≠ "")) = [] := by
      rw [List.filter_eq_nil_iff]
      intro a ha
      rcases List.mem_map.1 ha with ⟨i, hi, rfl⟩
      have hilt := List.mem_range.1 hi
      simp [hall i hilt]
    rw [hfil]
    rfl
  have hdet : detectDisplayCurrency (ApplyFilters view spec.filters)
      cfg.currencyDimension cfg.baseCurrency = (cfg.baseCurrency, true) := by
    rw [detectDisplayCurrency, if_neg hfne, hcodes]
  have hcs : currencyStep (ApplyFilters view spec.filters) cfg (resolveMeasure spec cfg) =
      (RecordView.currency (ApplyFilters view spec.filters) (resolveMeasure spec cfg)
        cfg.currencyDimension cfg.baseCurrency cfg.exchangeRates,
       cfg.baseCurrency, true) := by
    simp only [currencyStep, hdet, if_pos (show cfg.baseCurrency ≠ "" ∧
      cfg.currencyDimension ≠ "" ∧ ¬ cfg.exchangeRates.isEmpty from ⟨hbase, hdim, hrates⟩)]
    simp [hbase]
  obtain ⟨hdu, hsc⟩ := Execute_currency_projections spec view cfg hne hnr hfne
  rw [hdu, hsc, hcs]
  exact ⟨rfl, rfl, rfl⟩

/-- Witness for C10 at a concrete no-code view with a full currency
configuration. -/
theorem C10_no_codes_treated_multicurrency_witness :
    (emptyCodeView.len ≠ 0 ∧
      (ApplyFilters emptyCodeView sumSpec.filters).len ≠ 0 ∧
      (∀ i, i < (ApplyFilters emptyCodeView sumSpec.filters).len →
        (ApplyFilters emptyCodeView sumSpec.filters).dimension i
          eurFullCfg.currencyDimension = "")) ∧
    ((Execute sumSpec emptyCodeView eurFullCfg).1.shouldConvert = true ∧
      (Execute sumSpec emptyCodeView eurFullCfg).1.displayUnit = eurFullCfg.baseCurrency ∧
      currencyStep (ApplyFilters emptyCodeView sumSpec.filters) eurFullCfg
          (resolveMeasure sumSpec eurFullCfg) =
        (RecordView.currency (ApplyFilters emptyCodeView sumSpec.filters)
          (resolveMeasure sumSpec eurFullCfg) eurFullCfg.currencyDimension
          eurFullCfg.baseCurrency eurFullCfg.exchangeRates,
         eurFullCfg.baseCurrency, true)) :=
  ⟨⟨by decide, by decide, by decide⟩,
    C10_no_codes_treated_multicurrency sumSpec emptyCodeView eurFullCfg
      (by decide) (by decide) (by decide) (by decide) (by decide) (by decide)
      (by decide)⟩

/-- C7 (amended): for numeric and string columns, an all-distinct sample
(uniqueCount equal to the sampled row count) with more than 10 sampled
rows is always skipped with recoverable = false.  Date and boolean
columns are never skipped by this rule (see the counterexample). -/
theorem C7_unique_identifier_skip (t : ColumnType) (u n : Nat) (d : Bool)
    (ht : t = ColumnType.numeric ∨ t = ColumnType.string)
    (hu : u = n) (hn : n > 10) :
    (classifyRole t u n d).role = ColumnRole.skipped ∧
    (classifyRole t u n d).recoverable = false := by
  subst hu
  rcases ht with rfl | rfl <;>
    · rw [classifyRole]
      rw [if_pos ⟨rfl, hn⟩]
      exact ⟨rfl, rfl⟩

/-- Witness for C7 at a concrete all-distinct numeric column. -/
theorem C7_unique_identifier_skip_witness :
    ((ColumnType.numeric = ColumnType.numeric ∨
        ColumnType.numeric = ColumnType.string) ∧
      (12 : Nat) = 12 ∧ (12 : Nat) > 10) ∧
    ((classifyRole ColumnType.numeric 12 12 false).role = ColumnRole.skipped ∧
      (classifyRole ColumnType.numeric 12 12 false).recoverable = false) :=
  ⟨⟨Or.inl rfl, rfl, by decide⟩,
    C7_unique_identifier_skip ColumnType.numeric 12 12 false (Or.inl rfl) rfl (by decide)⟩

/-- Counterexample to C7 as stated ("for every column type"): a date
column whose 12 sampled values are all distinct (more than 10 rows) is
classified as a dimension, not placed in the skipped columns. -/
theorem C7_counterexample_date_column :
    (classifyRole ColumnType.date 12 12 false).role = ColumnRole.dimension ∧
    (classifyRole ColumnType.date 12 12 false).role ≠ ColumnRole.skipped := by
  exact ⟨rfl, by decide⟩

lemma lookupDimCol_key {cols : List DimCol} {k : String} {pcol : DimCol}
    (h : lookupDimCol cols k = some pcol) : pcol.key = k := by
  have := List.find?_some h
  simpa using this

lemma bpFold_char (dimKeys : List String) (cols : List DimCol)
    (rows : List (List String)) (i : Nat) (childCol : DimCol) :
    ∀ (js : List Nat) (b : String × Nat),
      (∀ j ∈ js, j < dimKeys.length) →
      (b = ("", 0) ∨ ∃ j pcol, selectableParent dimKeys cols rows i childCol j pcol ∧
        b = (dimKeys.getD j "", pcol.uniqueCount)) →
      (js.foldl (bpStep dimKeys cols rows i childCol) b = b ∨
        ∃ j ∈ js, ∃ pcol, selectableParent dimKeys cols rows i childCol j pcol ∧
          js.foldl (bpStep dimKeys cols rows i childCol) b =
            (dimKeys.getD j "", pcol.uniqueCount)) ∧
      (∀ j ∈ js, ∀ pcol, selectableParent dimKeys cols rows i childCol j pcol →
        pcol.uniqueCount ≤ (js.foldl (bpStep dimKeys cols rows i childCol) b).2) ∧
      b.2 ≤ (js.foldl (bpStep dimKeys cols rows i childCol) b).2 := by
  intro js
  induction js with
  | nil =>
    intro b _ _
    exact ⟨Or.inl rfl, fun j hj => absurd hj (List.not_mem_nil j), le_refl _⟩
  | cons j rest ih =>
    intro b hlt hpre
    simp only [List.foldl_cons]
    have hjlt : j < dimKeys.length := hlt j (List.mem_cons_self j rest)
    have hltr : ∀ j2 ∈ rest, j2 < dimKeys.length :=
      fun j2 hj2 => hlt j2 (List.mem_cons_of_mem j hj2)
    by_cases hji : j = i
    · have hb' : bpStep dimKeys cols rows i childCol b j = b := by
        rw [bpStep, if_pos hji]
      rw [hb']
      obtain ⟨i1, i2, i3⟩ := ih b hltr hpre
      refine ⟨?_, ?_, i3⟩
      · rcases i1 with h | ⟨j2, hj2, pcol2, hsel2, heq2⟩
        · exact Or.inl h
        · exact Or.inr ⟨j2, List.mem_cons_of_mem j hj2, pcol2, hsel2, heq2⟩
      · intro j2 hj2 pcol2 hsel2
        rcases List.mem_cons.1 hj2 with rfl | hj2'
        · exact absurd hji hsel2.2.1
        · exact i2 j2 hj2' pcol2 hsel2
    · cases hlp : lookupDimCol cols (dimKeys.getD j "") with
      | none =>
        have hb' : bpStep dimKeys cols rows i childCol b j = b := by
          rw [bpStep, if_neg hji, hlp]
        rw [hb']
        obtain ⟨i1, i2, i3⟩ := ih b hltr hpre
        refine ⟨?_, ?_, i3⟩
        · rcases i1 with h | ⟨j2, hj2, pcol2, hsel2, heq2⟩
          · exact Or.inl h
          · exact Or.inr ⟨j2, List.mem_cons_of_mem j hj2, pcol2, hsel2, heq2⟩
        · intro j2 hj2 pcol2 hsel2
          rcases List.mem_cons.1 hj2 with rfl | hj2'
          · rw [hsel2.2.2.1] at hlp
            cases hlp
          · exact i2 j2 hj2' pcol2 hsel2
      | some pcol =>
        have hpcol_only : ∀ pcol2, selectableParent dimKeys cols rows i childCol j pcol2 →
            pcol2 = pcol := by
          intro pcol2 hsel2
          have := hsel2.2.2.1
          rw [hlp] at this
          exact (Option.some.inj this).symm
        by_cases hge : pcol.uniqueCount ≥ childCol.uniqueCount
        · have hb' : bpStep dimKeys cols rows i childCol b j = b := by
            rw [bpStep, if_neg hji, hlp]
            simp only [if_pos hge]
          rw [hb']
          obtain ⟨i1, i2, i3⟩ := ih b hltr hpre
          refine ⟨?_, ?_, i3⟩
          · rcases i1 with h | ⟨j2, hj2, pcol2, hsel2, heq2⟩
            · exact Or.inl h
            · exact Or.inr ⟨j2, List.mem_cons_of_mem j hj2, pcol2, hsel2, heq2⟩
          · intro j2 hj2 pcol2 hsel2
            rcases List.mem_cons.1 hj2 with rfl | hj2'
            · have := hpcol_only pcol2 hsel2
              subst this
              exact absurd hsel2.2.2.2.1 (by omega)
            · exact i2 j2 hj2' pcol2 hsel2
        · by_cases hpass : hierarchyPass rows childCol.index pcol.index = true
          · by_cases hgt : pcol.uniqueCount > b.2
            · have hb' : bpStep dimKeys cols rows i childCol b j =
                  (dimKeys.getD j "", pcol.uniqueCount) := by
                rw [bpStep, if_neg hji, hlp]
                simp only [if_neg hge, if_pos hpass, if_pos hgt]
              rw [hb']
              have hsel : selectableParent dimKeys cols rows i childCol j pcol :=
                ⟨hjlt, hji, hlp, by omega, hpass, by omega⟩
              obtain ⟨i1, i2, i3⟩ := ih (dimKeys.getD j "", pcol.uniqueCount) hltr
                (Or.inr ⟨j, pcol, hsel, rfl⟩)
              refine ⟨?_, ?_, ?_⟩
              · rcases i1 with h | ⟨j2, hj2, pcol2, hsel2, heq2⟩
                · exact Or.inr ⟨j, List.mem_cons_self j rest, pcol, hsel, h⟩
                · exact Or.inr ⟨j2, List.mem_cons_of_mem j hj2, pcol2, hsel2, heq2⟩
              · intro j2 hj2 pcol2 hsel2
                rcases List.mem_cons.1 hj2 with rfl | hj2'
                · have := hpcol_only pcol2 hsel2
                  subst this
                  exact i3
                · exact i2 j2 hj2' pcol2 hsel2
              · calc b.2 ≤ pcol.uniqueCount := by omega
                  _ ≤ _ := i3
            · have hb' : bpStep dimKeys cols rows i childCol b j = b := by
                rw [bpStep, if_neg hji, hlp]
                simp only [if_neg hge, if_pos hpass, if_neg hgt]
              rw [hb']
              obtain ⟨i1, i2, i3⟩ := ih b hltr hpre
              refine ⟨?_, ?_, i3⟩
              · rcases i1 with h | ⟨j2, hj2, pcol2, hsel2, heq2⟩
                · exact Or.inl h
                · exact Or.inr ⟨j2, List.mem_cons_of_mem j hj2, pcol2, hsel2, heq2⟩
              · intro j2 hj2 pcol2 hsel2
                rcases List.mem_cons.1 hj2 with rfl | hj2'
                · have := hpcol_only pcol2 hsel2
                  subst this
                  have : pcol2.uniqueCount ≤ b.2 := by omega
                  exact le_trans this i3
                · exact i2 j2 hj2' pcol2 hsel2
          · have hb' : bpStep dimKeys cols rows i childCol b j = b := by
              rw [bpStep, if_neg hji, hlp]
              simp only [if_neg hge, if_neg hpass]
            rw [hb']
            obtain ⟨i1, i2, i3⟩ := ih b hltr hpre
            refine ⟨?_, ?_, i3⟩
            · rcases i1 with h | ⟨j2, hj2, pcol2, hsel2, heq2⟩
              · exact Or.inl h
              · exact Or.inr ⟨j2, List.mem_cons_of_mem j hj2, pcol2, hsel2, heq2⟩
            · intro j2 hj2 pcol2 hsel2
              rcases List.mem_cons.1 hj2 with rfl | hj2'
              · have := hpcol_only pcol2 hsel2
                subst this
                exact absurd hsel2.2.2.2.2.1 hpass
              · exact i2 j2 hj2' pcol2 hsel2

/-- C8 (amended): for every dimension, among the candidate parents that
have strictly fewer distinct values than the child and pass the code's
mapping test — rows with an empty trimmed child or candidate cell are
ignored, every mapped child value must map to exactly one candidate
value, at least two distinct child values must be mapped, and the
candidate needs at least one distinct value — the candidate with the
highest unique-value count is selected (the first among ties in
dimension order); if no candidate qualifies, the dimension gets no
parent. -/
theorem C8_closest_valid_parent (dimKeys : List String) (cols : List DimCol)
    (rows : List (List String)) (i : Nat) (childKey : String) (childCol : DimCol)
    (hkeys : "" ∉ dimKeys)
    (hik : dimKeys[i]? = some childKey)
    (hic : lookupDimCol cols childKey = some childCol) :
    (detectHierarchies dimKeys cols rows)[i]? =
      some (bestParentFor dimKeys cols rows i) ∧
    (bestParentFor dimKeys cols rows i = none ↔
      ∀ j pcol, ¬ selectableParent dimKeys cols rows i childCol j pcol) ∧
    (∀ p, bestParentFor dimKeys cols rows i = some p →
      ∃ j pcol, selectableParent dimKeys cols rows i childCol j pcol ∧
        p = dimKeys.getD j "" ∧ pcol.key = p ∧
        ∀ j2 pcol2, selectableParent dimKeys cols rows i childCol j2 pcol2 →
          pcol2.uniqueCount ≤ pcol.uniqueCount) := by
  obtain ⟨hilt, -⟩ := List.getElem?_eq_some_iff.1 hik
  have hgetD_ne : ∀ j, j < dimKeys.length → dimKeys.getD j "" ≠ "" := by
    intro j hj
    have hsome : dimKeys[j]? = some dimKeys[j] := List.getElem?_eq_getElem hj
    have : dimKeys.getD j "" = dimKeys[j] := by
      rw [List.getD_eq_getElem?_getD, hsome]
      rfl
    rw [this]
    intro hemp
    exact hkeys (hemp ▸ List.getElem_mem hj)
  obtain ⟨inv1, inv2, _⟩ := bpFold_char dimKeys cols rows i childCol
    (List.range dimKeys.length) ("", 0)
    (fun j hj => List.mem_range.1 hj) (Or.inl rfl)
  have hbp : bestParentFor dimKeys cols rows i =
      (if ((List.range dimKeys.length).foldl
          (bpStep dimKeys cols rows i childCol) ("", 0)).1 = "" then none
       else some ((List.range dimKeys.length).foldl
          (bpStep dimKeys cols rows i childCol) ("", 0)).1) := by
    simp only [bestParentFor, hik, hic]
  set st := (List.range dimKeys.length).foldl
    (bpStep dimKeys cols rows i childCol) ("", 0) with hst
  refine ⟨?_, ?_, ?_⟩
  · simp [detectHierarchies, hilt]
  · constructor
    · intro hnone j pcol hsel
      rw [hbp] at hnone
      by_cases hempty : st.1 = ""
      · rcases inv1 with hz | ⟨j2, _, pcol2, hsel2, heq2⟩
        · have hz2 : st.2 = 0 := by rw [hz]
          have hle := inv2 j (List.mem_range.2 hsel.1) pcol hsel
          have hone := hsel.2.2.2.2.2
          omega
        · rw [heq2] at hempty
          exact hgetD_ne j2 hsel2.1 hempty
      · rw [if_neg hempty] at hnone
        cases hnone
    · intro hnosel
      rw [hbp]
      rcases inv1 with hz | ⟨j2, _, pcol2, hsel2, _⟩
      · rw [if_pos (by rw [hz])]
      · exact absurd hsel2 (hnosel j2 pcol2)
  · intro p hp
    rw [hbp] at hp
    by_cases hempty : st.1 = ""
    · rw [if_pos hempty] at hp
      cases hp
    · rw [if_neg hempty] at hp
      have hpst : p = st.1 := (Option.some.inj hp).symm
      rcases inv1 with hz | ⟨j2, _, pcol2, hsel2, heq2⟩
      · exact absurd (by rw [hz]) hempty
      · refine ⟨j2, pcol2, hsel2, ?_, ?_, ?_⟩
        · rw [hpst, heq2]
        · rw [lookupDimCol_key hsel2.2.2.1, hpst, heq2]
        · intro j3 pcol3 hsel3
          have := inv2 j3 (List.mem_range.2 hsel3.1) pcol3 hsel3
          rw [heq2] at this
          exact this

/-- Witness for C8 at the sample: `category` (2 distinct values) is
selected as the parent of `field` (4 distinct values). -/
theorem C8_closest_valid_parent_witness :
    (colUnique hierSampleRows 0 = 4 ∧ colUnique hierSampleRows 1 = 2 ∧
      "" ∉ ["field", "category"] ∧
      (["field", "category"] : List String)[0]? = some "field" ∧
      lookupDimCol hierSampleCols "field" = some ⟨"field", 0, 4⟩ ∧
      bestParentFor ["field", "category"] hierSampleCols hierSampleRows 0 =
        some "category") ∧
    ((detectHierarchies ["field", "category"] hierSampleCols hierSampleRows)[0]? =
      some (bestParentFor ["field", "category"] hierSampleCols hierSampleRows 0) ∧
    (bestParentFor ["field", "category"] hierSampleCols hierSampleRows 0 = none ↔
      ∀ j pcol, ¬ selectableParent ["field", "category"] hierSampleCols hierSampleRows 0
        ⟨"field", 0, 4⟩ j pcol) ∧
    (∀ p, bestParentFor ["field", "category"] hierSampleCols hierSampleRows 0 = some p →
      ∃ j pcol, selectableParent ["field", "category"] hierSampleCols hierSampleRows 0
          ⟨"field", 0, 4⟩ j pcol ∧
        p = (["field", "category"] : List String).getD j "" ∧ pcol.key = p ∧
        ∀ j2 pcol2, selectableParent ["field", "category"] hierSampleCols hierSampleRows 0
            ⟨"field", 0, 4⟩ j2 pcol2 →
          pcol2.uniqueCount ≤ pcol.uniqueCount)) :=
  ⟨⟨by decide, by decide, by decide, by decide, by decide, by decide⟩,
    C8_closest_valid_parent ["field", "category"] hierSampleCols hierSampleRows 0
      "field" ⟨"field", 0, 4⟩ (by decide) (by decide) (by decide)⟩

/-- Counterexample to C8 as stated: the code ignores the row with the
empty `category` cell and assigns `category` as the parent of `field`,
although the claim's condition — *every* child value maps to exactly one
candidate-parent value across all sampled rows — fails (the child value
`c` maps to no candidate value), so under the claim no candidate passes
and no parent should be assigned. -/
theorem C8_counterexample_empty_parent_cells :
    colUnique hierCexRows 0 = 3 ∧ colUnique hierCexRows 1 = 2 ∧
    detectHierarchies ["field", "category"] hierCexCols hierCexRows =
      [some "category", none] ∧
    specValidParent hierCexRows 0 1 3 2 = false := by
  exact ⟨by decide, by decide, by decide, by decide⟩

lemma deepCopyConfig_eq (draft : Config) :
    deepCopyConfig draft = { draft with refinedAt := "", refinedBy := "" } := by
  have hdims : draft.dimensions.map
      (fun d => { d with sampleValues := d.sampleValues.map id }) = draft.dimensions := by
    have := List.map_congr_left
      (fun (d : DimensionMeta) (_ : d ∈ draft.dimensions) =>
        (by simp : { d with sampleValues := d.sampleValues.map id } = id d))
    rw [this, List.map_id]
  have hmes : draft.measures.map
      (fun m => { m with aggregations := m.aggregations.map id }) = draft.measures := by
    have := List.map_congr_left
      (fun (m : MeasureMeta) (_ : m ∈ draft.measures) =>
        (by simp : { m with aggregations := m.aggregations.map id } = id m))
    rw [this, List.map_id]
  have hcur : draft.currency.map (fun cc => { cc with rates := cc.rates.map id }) =
      draft.currency := by
    cases draft.currency with
    | none => rfl
    | some cc => simp
  rw [deepCopyConfig, hdims, hmes, hcur, List.map_id]

/-- C9: `Refine` never alters the input draft: call and parse failures
return the original draft value together with an error; success returns
the enrichment merge applied to a deep copy, and the deep copy preserves
every field of the draft (only the refinement-metadata fields are
reset); with no suggestions, the merge changes nothing but the
refinement metadata. -/
theorem C9_refine_preserves_draft (draft : Config) (apiKey : String)
    (outcome : RefineOutcome) (now : String) :
    ((outcome = RefineOutcome.callFailed ∨ outcome = RefineOutcome.parseFailed) →
      apiKey ≠ "" → Refine (some draft) apiKey outcome now = (some draft, true)) ∧
    (∀ e, outcome = RefineOutcome.parsed e → apiKey ≠ "" →
      Refine (some draft) apiKey outcome now =
        (some (applyEnrichments draft e now), false)) ∧
    deepCopyConfig draft = { draft with refinedAt := "", refinedBy := "" } ∧
    applyEnrichments draft {} now = { draft with refinedAt := now, refinedBy := "gemini" } := by
  refine ⟨?_, ?_, deepCopyConfig_eq draft, ?_⟩
  · intro hout hkey
    rcases hout with rfl | rfl <;> · rw [Refine, if_neg hkey]
  · intro e hout hkey
    subst hout
    rw [Refine, if_neg hkey]
  · have hd : ∀ d : DimensionMeta, enrichDimension [] d = d := by
      intro d
      rw [enrichDimension]
      rfl
    have hm : ∀ m : MeasureMeta, enrichMeasure [] m = m := by
      intro m
      rw [enrichMeasure]
      rfl
    have hdl : ∀ l : List DimensionMeta, l.map (enrichDimension []) = l := by
      intro l
      have h : ∀ d ∈ l, enrichDimension [] d = id d := fun d _ => hd d
      rw [List.map_congr_left h, List.map_id]
    have hml : ∀ l : List MeasureMeta, l.map (enrichMeasure []) = l := by
      intro l
      have h : ∀ m ∈ l, enrichMeasure [] m = id m := fun m _ => hm m
      rw [List.map_congr_left h, List.map_id]
    simp only [applyEnrichments, deepCopyConfig_eq]
    simp [hdl, hml]

/-- Witness for C9 at the concrete draft: a failed call returns the
draft unchanged; a parsed outcome returns the merged copy; the deep copy
preserves the draft's content. -/
theorem C9_refine_preserves_draft_witness :
    ((RefineOutcome.callFailed = RefineOutcome.callFailed ∨
        RefineOutcome.callFailed = RefineOutcome.parseFailed) ∧ ("k" : String) ≠ "") ∧
    (Refine (some sampleDraft) "k" RefineOutcome.callFailed "t" =
      (some sampleDraft, true)) ∧
    deepCopyConfig sampleDraft =
      { sampleDraft with refinedAt := "", refinedBy := "" } ∧
    applyEnrichments sampleDraft {} "t" =
      { sampleDraft with refinedAt := "t", refinedBy := "gemini" } :=
  ⟨⟨Or.inl rfl, by decide⟩,
    (C9_refine_preserves_draft sampleDraft "k" RefineOutcome.callFailed "t").1
      (Or.inl rfl) (by decide),
    (C9_refine_preserves_draft sampleDraft "k" RefineOutcome.callFailed "t").2.2.1,
    (C9_refine_preserves_draft sampleDraft "k" RefineOutcome.callFailed "t").2.2.2⟩

end Spektr
